import Mathlib

/-!
wssht: the connection handler and the server of the tunnel proxy.

A shallow embedding of `internal/proxy/handler.go` and `internal/proxy/server.go`.

* Go strings and byte slices are lists of bytes (`Bytes`).
* `strings.Index` returns an `Int`, with `-1` for "not found", as in Go.
* A Go slice expression that would panic (index out of range) and a method call on a nil
  connection are the value `none` of `Option`.
* Sockets are records that count the calls made on them (`Conn`, `Listener`).
* Logging (`PrintLog`, the text of `h.log`) writes to standard output only and is left out;
  the ghost fields `connects` and `dials` of the handler record the calls of `MethodCONNECT`
  and of `net.Dial`.
-/

namespace Wssht

/-! ## Bytes and the string library -/

/-- A Go string or byte slice. -/
abbrev Bytes := List UInt8

/-- The bytes of an ASCII literal. -/
def ascii (s : String) : Bytes := s.toList.map (fun c => UInt8.ofNat c.toNat)

/-- Position of the first occurrence of `sub` in a string, if there is one. -/
def indexNat (sub : Bytes) : Bytes → Option Nat
  | [] => if sub.isPrefixOf [] then some 0 else none
  | c :: cs => if sub.isPrefixOf (c :: cs) then some 0 else (indexNat sub cs).map (· + 1)

/-- Go `strings.Index(s, substr)`: index of the first occurrence, `-1` when there is none. -/
def Index (s substr : Bytes) : Int :=
  match indexNat substr s with
  | some i => (i : Int)
  | none => -1

/-- Go `s[lo:]`; `none` is the out-of-range panic. -/
def sliceFrom (s : Bytes) (lo : Int) : Option Bytes :=
  if 0 ≤ lo ∧ lo ≤ (s.length : Int) then some (s.drop lo.toNat) else none

/-- Go `s[:hi]`; `none` is the out-of-range panic. -/
def sliceTo (s : Bytes) (hi : Int) : Option Bytes :=
  if 0 ≤ hi ∧ hi ≤ (s.length : Int) then some (s.take hi.toNat) else none

/-- Go `strings.HasPrefix(s, p)`. -/
def HasPrefix (s p : Bytes) : Bool := p.isPrefixOf s

/-! ## Header scanner -/

/-- `ConnectionHandler.FindHeader` (handler.go, lines 53-70). The receiver is not used by
the Go method. -/
def FindHeader (head : Bytes) (header : Bytes) : Option Bytes :=
  let headStr := head
  let aux := Index headStr (header ++ ascii ": ")
  if aux = -1 then some []
  else
    (sliceFrom headStr aux).bind fun tail =>
    let aux := Index tail (ascii ":") + aux
    (sliceFrom headStr (aux + 2)).bind fun headStr =>
    let aux := Index headStr (ascii "\r\n")
    if aux = -1 then some []
    else sliceTo headStr aux

/-- The text that follows the first occurrence of `sep` in a string (reference definition). -/
def afterFirst (sep : Bytes) : Bytes → Option Bytes
  | [] => if sep = [] then some [] else none
  | c :: cs => if sep.isPrefixOf (c :: cs) then some ((c :: cs).drop sep.length) else afterFirst sep cs

/-- The text that precedes the first occurrence of `sep` in a string (reference definition). -/
def beforeFirst (sep : Bytes) : Bytes → Option Bytes
  | [] => if sep = [] then some [] else none
  | c :: cs => if sep.isPrefixOf (c :: cs) then some [] else (beforeFirst sep cs).map (c :: ·)

/-- Reference definition of the header scanner, after the specification: empty when
`"<name>: "` does not occur; otherwise the text after its first occurrence, up to its first
CRLF, and empty when that text has no CRLF. -/
def FindHeaderRef (head name : Bytes) : Bytes :=
  match afterFirst (name ++ ascii ": ") head with
  | none => []
  | some text =>
    match beforeFirst (ascii "\r\n") text with
    | none => []
    | some value => value

/-! ## strconv and fmt (Go standard library) -/

/-- Width of the Go type `int` (a 64-bit platform). -/
def intSize : Nat := 64

/-- The digit loop of `strconv.Atoi`: `ch -= '0'; if ch > 9 { error }; n = n*10 + int(ch)`. -/
def parseDigits : Bytes → Nat → Option Nat
  | [], n => some n
  | ch :: rest, n =>
    let d : UInt8 := ch - 48
    if d > 9 then none else parseDigits rest (n * 10 + d.toNat)

/-- Go `strconv.Atoi`: an optional sign `+` or `-`, then one or more decimal digits, the
value within the range of `int`; `none` is a returned error. -/
def Atoi (s : Bytes) : Option Int :=
  match s with
  | [] => none
  | c :: rest =>
    let digits := if c = 45 ∨ c = 43 then rest else s
    if digits = [] then none
    else
      match parseDigits digits 0 with
      | none => none
      | some n =>
        if c = 45 then (if n ≤ 2 ^ (intSize - 1) then some (-(n : Int)) else none)
        else (if n < 2 ^ (intSize - 1) then some (n : Int) else none)

/-- Decimal digits of a natural number, as `%d` prints them. -/
def fmtNat (n : Nat) : Bytes := (Nat.toDigits 10 n).map (fun c => UInt8.ofNat c.toNat)

/-- Go `fmt.Sprintf("%d", n)` for an `int`. -/
def fmtInt : Int → Bytes
  | Int.ofNat m => fmtNat m
  | Int.negSucc m => 45 :: fmtNat (m + 1)

/-! ## Sockets -/

/-- A `net.Conn`, seen from the proxy. `incoming` holds what the peer sends, chunk by chunk,
`none` standing for a read error; an exhausted list is a read error too (end of stream).
`writeErrs` tells for the successive `Write` calls whether the call fails; an exhausted list
means success. `readCalls`, `written` and `closeCalls` record the calls made through the
handler: the number of `Read` calls of the handshake (the reads of the relay are the events
of `Env`), the arguments of the `Write` calls in order, the number of `Close` calls. -/
structure Conn where
  incoming : List (Option Bytes)
  writeErrs : List Bool
  readCalls : Nat
  written : List Bytes
  closeCalls : Nat
deriving DecidableEq

/-- Go `c.Read(buf)` with `len(buf) = cap`: the error case is `none`, otherwise the bytes
stored in `buf[:n]`. Bytes of a chunk that do not fit stay for the next read. -/
def Conn.Read (c : Conn) (cap : Nat) : Option Bytes × Conn :=
  match c.incoming with
  | [] => (none, { c with readCalls := c.readCalls + 1 })
  | none :: rest => (none, { c with incoming := rest, readCalls := c.readCalls + 1 })
  | some data :: rest =>
    (some (data.take cap),
     { c with
       incoming := if data.length ≤ cap then rest else some (data.drop cap) :: rest,
       readCalls := c.readCalls + 1 })

/-- Go `c.Write(data)`; the boolean is `err == nil`. -/
def Conn.Write (c : Conn) (data : Bytes) : Bool × Conn :=
  match c.writeErrs with
  | [] => (true, { c with written := c.written ++ [data] })
  | e :: rest => (!e, { c with writeErrs := rest, written := c.written ++ [data] })

/-- Go `c.Close()`. -/
def Conn.Close (c : Conn) : Conn := { c with closeCalls := c.closeCalls + 1 }

/-- A `net.Listener`; only `Close` is called on it by the code modelled here. -/
structure Listener where
  closeCalls : Nat
deriving DecidableEq

/-- Go `l.Close()`. -/
def Listener.Close (l : Listener) : Listener := { l with closeCalls := l.closeCalls + 1 }

/-! ## Data model -/

/-- `BUFLEN` (handler.go, line 12). -/
def BUFLEN : Nat := 4096 * 4

/-- `TIMEOUT`, in seconds (handler.go, line 13). -/
def TIMEOUT : Nat := 60

/-- `RESPONSE` (handler.go, line 14). -/
def RESPONSE : Bytes :=
  ascii "HTTP/1.1 101 Switching Protocol\r\nContent-Length: 1048576000000\r\n\r\n"

/-- The literal written at handler.go, line 269. -/
def WrongPass : Bytes := ascii "HTTP/1.1 400 WrongPass!\r\n\r\n"

/-- The literal written at handler.go, line 273. -/
def Forbidden : Bytes := ascii "HTTP/1.1 403 Forbidden!\r\n\r\n"

/-- The literal written at handler.go, line 277. -/
def NoXRealHost : Bytes := ascii "HTTP/1.1 400 NoXRealHost!\r\n\r\n"

/-- `ConnectionHandler` (handler.go, lines 18-26). `id` is the identity of the handler object
(the registry compares pointers); a nil `target` is `none`. The field `server` is passed to
the operations as an argument, and `log` is left out. Ghost fields: `connects` lists the
arguments of the `MethodCONNECT` calls, `dials` the addresses passed to `net.Dial`. -/
structure ConnectionHandler where
  id : Nat
  client : Conn
  target : Option Conn
  clientClosed : Bool
  targetClosed : Bool
  clientBuffer : Bytes
  connects : List Bytes
  dials : List Bytes
deriving DecidableEq

/-- `Server` (server.go, lines 10-20), without the two mutexes. -/
structure Server where
  host : Bytes
  port : Int
  pass : Bytes
  defaultHost : Bytes
  running : Bool
  listener : Option Listener
  handlers : List ConnectionHandler
deriving DecidableEq

/-- What one event received by the coordinating loop of `DoCONNECT` carries: data read from
the client, data read from the target, or an error (a read error or the idle timeout). -/
inductive RelayEvent where
  | clientData (data : Bytes)
  | targetData (data : Bytes)
  | error
deriving DecidableEq

/-- The network around one connection: `dial addr` is the result of `net.Dial("tcp", addr)`
(`none` when it fails), `events` the events that the coordinating loop receives, in order,
until the idle timeout fires. -/
structure Env where
  dial : Bytes → Option Conn
  events : List RelayEvent

/-- The errors returned by `ConnectTarget`. -/
inductive ConnectError where
  | invalidPortFormat
  | dialFailed (addr : Bytes)
deriving DecidableEq

/-! ## Server operations -/

/-- `NewServer` (server.go, lines 23-36). -/
def NewServer (host : Bytes) (port : Int) (pass : Bytes) (defaultHost : Bytes) : Server :=
  let defaultHost := if defaultHost = [] then ascii "127.0.0.1:143" else defaultHost
  { host := host
    port := port
    pass := pass
    defaultHost := defaultHost
    running := false
    listener := none
    handlers := [] }

/-- `Server.GetPass` (server.go, lines 121-123). -/
def Server.GetPass (s : Server) : Bytes := s.pass

/-- `Server.GetDefaultHost` (server.go, lines 126-128). -/
def Server.GetDefaultHost (s : Server) : Bytes := s.defaultHost

/-- `Server.AddHandler` (server.go, lines 83-89). -/
def Server.AddHandler (s : Server) (handler : ConnectionHandler) : Server :=
  if s.running then { s with handlers := s.handlers ++ [handler] } else s

/-- The loop of `RemoveHandler`: drop the first entry that is the given handler object. -/
def removeFirst (id : Nat) : List ConnectionHandler → List ConnectionHandler
  | [] => []
  | h :: hs => if h.id = id then hs else h :: removeFirst id hs

/-- `Server.RemoveHandler` (server.go, lines 92-101). -/
def Server.RemoveHandler (s : Server) (handler : ConnectionHandler) : Server :=
  { s with handlers := removeFirst handler.id s.handlers }

/-! ## Connection handler -/

/-- `NewConnectionHandler` (handler.go, lines 29-37). -/
def NewConnectionHandler (id : Nat) (client : Conn) : ConnectionHandler :=
  { id := id
    client := client
    target := none
    clientClosed := false
    targetClosed := true
    clientBuffer := []
    connects := []
    dials := [] }

/-- `ConnectionHandler.Close` (handler.go, lines 40-50); `none` is the nil dereference of
`h.target.Close()`. -/
def ConnectionHandler.Close (h : ConnectionHandler) : Option ConnectionHandler :=
  let h1 :=
    if !h.clientClosed then { h with client := h.client.Close, clientClosed := true } else h
  if !h1.targetClosed then
    match h1.target with
    | none => none
    | some t => some { h1 with target := some t.Close, targetClosed := true }
  else some h1

/-- `Close` called `n` times in sequence. -/
def closeTimes : Nat → ConnectionHandler → Option ConnectionHandler
  | 0, h => some h
  | n + 1, h => (ConnectionHandler.Close h).bind (closeTimes n)

/-- `ConnectionHandler.ConnectTarget` (handler.go, lines 73-101). The second component is the
returned error, `none` for nil. -/
def ConnectTarget (h : ConnectionHandler) (env : Env) (host : Bytes) :
    Option (ConnectionHandler × Option ConnectError) :=
  let i := Index host (ascii ":")
  let parts : Option (Bytes × Bytes) :=
    if i ≠ -1 then
      (sliceTo host i).bind fun hostStr =>
      (sliceFrom host (i + 1)).bind fun portStr => some (hostStr, portStr)
    else some (host, ascii "443")
  parts.bind fun (hostStr, portStr) =>
  match Atoi portStr with
  | none => some (h, some ConnectError.invalidPortFormat)
  | some port =>
    let targetAddr := hostStr ++ ascii ":" ++ fmtInt port
    match env.dial targetAddr with
    | none =>
      some ({ h with target := none, dials := h.dials ++ [targetAddr] },
            some (ConnectError.dialFailed targetAddr))
    | some conn =>
      some ({ h with target := some conn, targetClosed := false,
                     dials := h.dials ++ [targetAddr] }, none)

/-- The coordinating loop of `ConnectionHandler.DoCONNECT` (handler.go, lines 195-224), over
the events it receives. When the events are exhausted the idle timeout fires, which is an
error event. `none` is a nil dereference of `h.target`. -/
def DoCONNECT (h : ConnectionHandler) : List RelayEvent → Option ConnectionHandler
  | [] => some h
  | RelayEvent.error :: _ => some h
  | RelayEvent.clientData data :: rest =>
    match h.target with
    | none => none
    | some t =>
      let r := t.Write data
      let h1 := { h with target := some r.2 }
      if r.1 then DoCONNECT h1 rest else some h1
  | RelayEvent.targetData data :: rest =>
    let r := h.client.Write data
    let h1 := { h with client := r.2 }
    if r.1 then DoCONNECT h1 rest else some h1

/-- `ConnectionHandler.MethodCONNECT` (handler.go, lines 104-126). -/
def MethodCONNECT (h : ConnectionHandler) (env : Env) (path : Bytes) :
    Option ConnectionHandler :=
  let h0 := { h with connects := h.connects ++ [path] }
  (ConnectTarget h0 env path).bind fun (h1, err) =>
  match err with
  | some _ => some h1
  | none =>
    let r := h1.client.Write RESPONSE
    let h2 := { h1 with client := r.2 }
    if !r.1 then some h2
    else DoCONNECT { h2 with clientBuffer := [] } env.events

/-- Content of the slice `buf[:n]`, which held `view`, after a later `Read(buf)` has stored
`data` at the start of the same array `buf`. -/
def overwritten (view data : Bytes) : Bytes := data.take view.length ++ view.drop data.length

/-- Lines 262-278 of `ConnectionHandler.Handle`: the authorization policy. -/
def Handle.authorize (s : Server) (h : ConnectionHandler) (env : Env) (hostPort : Bytes) :
    Option ConnectionHandler :=
  if hostPort ≠ [] then
    (FindHeader h.clientBuffer (ascii "X-Pass")).bind fun passwd =>
    let serverPass := s.GetPass
    if serverPass.length ≠ 0 ∧ passwd = serverPass then
      MethodCONNECT h env hostPort
    else if serverPass.length ≠ 0 ∧ passwd ≠ serverPass then
      some { h with client := (h.client.Write WrongPass).2 }
    else if HasPrefix hostPort (ascii "127.0.0.1") || HasPrefix hostPort (ascii "localhost") then
      MethodCONNECT h env hostPort
    else
      some { h with client := (h.client.Write Forbidden).2 }
  else
    some { h with client := (h.client.Write NoXRealHost).2 }

/-- Lines 234-278 of `ConnectionHandler.Handle`: the body, before the deferred calls. The
slice `h.clientBuffer = buf[:n]` shares its array with `buf`, so the second `Read(buf)`
(line 254) changes what `h.clientBuffer` holds when `X-Pass` is looked up. -/
def Handle.body (s : Server) (h : ConnectionHandler) (env : Env) : Option ConnectionHandler :=
  match h.client.Read BUFLEN with
  | (none, c) => some { h with client := c }
  | (some buf, c) =>
    let h1 := { h with client := c, clientBuffer := buf }
    (FindHeader h1.clientBuffer (ascii "X-Real-Host")).bind fun found =>
    let hostPort := if found = [] then s.GetDefaultHost else found
    (FindHeader h1.clientBuffer (ascii "X-Split")).bind fun split =>
    if split ≠ [] then
      match h1.client.Read BUFLEN with
      | (none, c2) => some { h1 with client := c2 }
      | (some data, c2) =>
        Handle.authorize s
          { h1 with client := c2, clientBuffer := overwritten h1.clientBuffer data } env hostPort
    else Handle.authorize s h1 env hostPort

/-- `ConnectionHandler.Handle` (handler.go, lines 228-279): the body, then the deferred
`h.Close()` and `h.server.RemoveHandler(h)`. -/
def Handle (s : Server) (h : ConnectionHandler) (env : Env) :
    Option (ConnectionHandler × Server) :=
  (Handle.body s h env).bind fun h1 =>
  (ConnectionHandler.Close h1).bind fun h2 => some (h2, s.RemoveHandler h2)

/-- The loop of `Server.Close` over the snapshot of the registry. -/
def closeAll : List ConnectionHandler → Option (List ConnectionHandler)
  | [] => some []
  | h :: hs => (ConnectionHandler.Close h).bind fun h1 => (closeAll hs).bind fun hs1 => some (h1 :: hs1)

/-- `Server.Close` (server.go, lines 104-118). The snapshot holds the same handler objects as
the registry, so closing them shows in the registry. -/
def Server.Close (s : Server) : Option Server :=
  let s1 := { s with running := false }
  let s2 :=
    match s1.listener with
    | some l => { s1 with listener := some l.Close }
    | none => s1
  (closeAll s2.handlers).bind fun hs => some { s2 with handlers := hs }

/-! ## Auxiliary definitions for the statements -/

/-- Host text and port text of a target string: split at the first colon, the port text
`443` when there is no colon. -/
def splitTarget (host : Bytes) : Bytes × Bytes :=
  match indexNat (ascii ":") host with
  | some i => (host.take i, host.drop (i + 1))
  | none => (host, ascii "443")

/-- The address that `ConnectTarget` passes to `net.Dial` for a target string, `none` when
the port text is refused by `strconv.Atoi`. -/
def dialAddress (host : Bytes) : Option Bytes :=
  (Atoi (splitTarget host).2).map fun port => (splitTarget host).1 ++ ascii ":" ++ fmtInt port

/-- What `ConnectTarget` does once the address is built (handler.go, lines 94-100):
the dial, and the update of the handler. -/
def dialResult (h : ConnectionHandler) (env : Env) (targetAddr : Bytes) :
    ConnectionHandler × Option ConnectError :=
  match env.dial targetAddr with
  | none =>
    ({ h with target := none, dials := h.dials ++ [targetAddr] },
     some (ConnectError.dialFailed targetAddr))
  | some conn =>
    ({ h with target := some conn, targetClosed := false, dials := h.dials ++ [targetAddr] },
     none)

/-- The handler invariant behind `Close`: an open target flag comes with a target socket. -/
def ConnectionHandler.WF (h : ConnectionHandler) : Prop :=
  h.targetClosed = false → h.target.isSome = true

/-- A decimal digit `0` to `9`. -/
def isDigit (c : UInt8) : Bool := decide (48 ≤ c) && decide (c ≤ 57)

/-- Value of a string of decimal digits. -/
def digitsValue (s : Bytes) : Nat := s.foldl (fun n c => n * 10 + (c.toNat - 48)) 0

/-- A port text that parses as a non-negative integer, in the words of the specification: a
non-empty string of decimal digits, with its value. -/
def decimalValue (s : Bytes) : Option Nat :=
  if s ≠ [] ∧ s.all isDigit = true then some (digitsValue s) else none

/-- The outcome of the Target Resolver of the specification. -/
inductive Resolved where
  | target (host : Bytes) (port : Nat)
  | formatError
deriving DecidableEq

/-- The Target Resolver as the specification words it: split at the first colon, the text
after it must parse as a non-negative integer, else a format error; port 443 when there is
no colon. -/
def ResolveRef (s : Bytes) : Resolved :=
  match beforeFirst (ascii ":") s, afterFirst (ascii ":") s with
  | some host, some portText =>
    match decimalValue portText with
    | some n => Resolved.target host n
    | none => Resolved.formatError
  | _, _ => Resolved.target s 443

/-- A client socket on which nothing has happened yet, with the given incoming chunks. -/
def freshConn (incoming : List (Option Bytes)) : Conn :=
  { incoming := incoming, writeErrs := [], readCalls := 0, written := [], closeCalls := 0 }

/-- A network in which every dial fails and no relay event arrives. -/
def deadEnv : Env := { dial := fun _ => none, events := [] }

/-- Number of `Close` calls made on the target socket of a handler, `0` without a target. -/
def ConnectionHandler.targetCloseCalls (h : ConnectionHandler) : Nat :=
  match h.target with
  | some t => t.closeCalls
  | none => 0

/-- What one `Close` does to a handler: same handler object, both flags set, and one `Close`
call on each socket whose flag was not set, none on a socket whose flag was set. -/
def ClosedFrom (h h1 : ConnectionHandler) : Prop :=
  h1.id = h.id ∧ h1.clientClosed = true ∧ h1.targetClosed = true ∧
  h1.client.closeCalls = h.client.closeCalls + (if h.clientClosed then 0 else 1) ∧
  h1.targetCloseCalls = h.targetCloseCalls + (if h.targetClosed then 0 else 1) ∧
  h1.target.isSome = h.target.isSome

instance (h : ConnectionHandler) : Decidable h.WF := by
  unfold ConnectionHandler.WF
  infer_instance

/-- Whether an event is the error event. -/
def RelayEvent.isError : RelayEvent → Bool
  | RelayEvent.error => true
  | _ => false

/-- The events that precede the first error event. -/
def beforeError (events : List RelayEvent) : List RelayEvent :=
  events.takeWhile fun e => !e.isError

/-- The payloads of the client-data events, in order. -/
def clientPayloads : List RelayEvent → List Bytes
  | [] => []
  | RelayEvent.clientData d :: rest => d :: clientPayloads rest
  | _ :: rest => clientPayloads rest

/-- The payloads of the target-data events, in order. -/
def targetPayloads : List RelayEvent → List Bytes
  | [] => []
  | RelayEvent.targetData d :: rest => d :: targetPayloads rest
  | _ :: rest => targetPayloads rest

/-- No `Write` call on the socket fails. -/
def Conn.NoWriteFails (c : Conn) : Prop := ∀ e ∈ c.writeErrs, e = false

instance (c : Conn) : Decidable c.NoWriteFails := by
  unfold Conn.NoWriteFails
  infer_instance

/-- A server in the middle of its life: running, with a listener and two registered
handlers, the second one with an open target. -/
def exampleServer : Server :=
  { NewServer (ascii "0.0.0.0") 80 [] [] with
    running := true
    listener := some { closeCalls := 0 }
    handlers :=
      [ NewConnectionHandler 1 (freshConn []),
        { NewConnectionHandler 2 (freshConn []) with
          target := some (freshConn []), targetClosed := false } ] }

/-- A handler in the relay phase, with a fresh client and a fresh target socket. -/
def relayingHandler : ConnectionHandler :=
  { NewConnectionHandler 1 (freshConn []) with target := some (freshConn []), targetClosed := false }

/-- A run of the relay: two chunks from the client around one from the target, then an
error, then a late chunk from the client. -/
def exampleEvents : List RelayEvent :=
  [ RelayEvent.clientData (ascii "SSH-2.0-c\r\n"), RelayEvent.targetData (ascii "SSH-2.0-s\r\n"),
    RelayEvent.clientData (ascii "kex"), RelayEvent.error, RelayEvent.clientData (ascii "late") ]

/-- The target string that `Handle` resolves from the handshake buffer (handler.go, lines
246-249): the value of `X-Real-Host`, the server default when that is empty. The value is
written with `FindHeaderRef`, which is what `FindHeader` returns for the three header names
of `Handle` (`FindHeader_eq_ref`). -/
def resolvedTarget (s : Server) (buf : Bytes) : Bytes :=
  if FindHeaderRef buf (ascii "X-Real-Host") = [] then s.GetDefaultHost
  else FindHeaderRef buf (ascii "X-Real-Host")

/-- Whether a target string passes the check of handler.go, line 270. -/
def loopbackByPrefix (hostPort : Bytes) : Bool :=
  HasPrefix hostPort (ascii "127.0.0.1") || HasPrefix hostPort (ascii "localhost")

/-- The handler went through `MethodCONNECT` on `hostPort`, once: the dial of `dialAddress`
is its only dial (no dial when the port text is refused); when the dial succeeds the writes
on the client are `RESPONSE` followed by payloads of target-data events, and there is no
write on the client otherwise. `w0` holds the earlier writes on the client socket. -/
def Connected (env : Env) (w0 : List Bytes) (hostPort : Bytes) (r : ConnectionHandler) : Prop :=
  r.connects = [hostPort] ∧ r.dials = (dialAddress hostPort).toList ∧
  ∃ relayed : List Bytes,
    r.client.written =
      w0 ++ (if ((dialAddress hostPort).bind env.dial).isSome then RESPONSE :: relayed else []) ∧
    ∀ d ∈ relayed, RelayEvent.targetData d ∈ env.events

/-- The handler wrote exactly the given literal to the client, made no dial and did not
enter `MethodCONNECT`. -/
def Rejected (w0 : List Bytes) (literal : Bytes) (r : ConnectionHandler) : Prop :=
  r.connects = [] ∧ r.dials = [] ∧ r.client.written = w0 ++ [literal]

/-- The handler wrote nothing, made no dial and did not enter `MethodCONNECT`. -/
def Silent (w0 : List Bytes) (r : ConnectionHandler) : Prop :=
  r.connects = [] ∧ r.dials = [] ∧ r.client.written = w0

/-- The authorization policy of handler.go, lines 262-278, as an outcome: `buf` is what the
handshake buffer holds when `X-Pass` is looked up. -/
def Decision (s : Server) (env : Env) (w0 : List Bytes) (buf hostPort : Bytes)
    (r : ConnectionHandler) : Prop :=
  if hostPort = [] then Rejected w0 NoXRealHost r
  else if s.pass ≠ [] then
    if FindHeaderRef buf (ascii "X-Pass") = s.pass then Connected env w0 hostPort r
    else Rejected w0 WrongPass r
  else if loopbackByPrefix hostPort = true then Connected env w0 hostPort r
  else Rejected w0 Forbidden r

/-- The outcome of `Handle` on a connection, by the results of the handshake reads. -/
def HandleOutcome (s : Server) (client : Conn) (env : Env) (r : ConnectionHandler) : Prop :=
  match client.Read BUFLEN with
  | (none, _) => r.client.readCalls = client.readCalls + 1 ∧ Silent client.written r
  | (some buf, c1) =>
    if FindHeaderRef buf (ascii "X-Split") ≠ [] then
      match c1.Read BUFLEN with
      | (none, _) => r.client.readCalls = client.readCalls + 2 ∧ Silent client.written r
      | (some data, _) =>
        r.client.readCalls = client.readCalls + 2 ∧
          Decision s env client.written (overwritten buf data) (resolvedTarget s buf) r
    else
      r.client.readCalls = client.readCalls + 1 ∧
        Decision s env client.written buf (resolvedTarget s buf) r

/-- A server with no password and the default target of the command line. -/
def openServer : Server :=
  { NewServer (ascii "0.0.0.0") 80 [] (ascii "127.0.0.1:143") with running := true }

/-- A server with the password `secret`. -/
def secretServer : Server :=
  { NewServer (ascii "0.0.0.0") 80 (ascii "secret") (ascii "127.0.0.1:143") with running := true }

/-- A network in which every dial succeeds and the relay runs on `exampleEvents`. -/
def liveEnv : Env := { dial := fun _ => some (freshConn []), events := exampleEvents }

/-- The handshake of scenario A of the specification. -/
def scenarioA : Bytes := ascii "X-Real-Host: 127.0.0.1:22\r\n\r\n"

/-- The handshake of scenario B of the specification. -/
def scenarioB : Bytes := ascii "X-Real-Host: example.com:9999\r\n\r\n"

/-- The handshake of scenario C of the specification. -/
def scenarioC : Bytes := ascii "X-Real-Host: 127.0.0.1:22\r\nX-Pass: wrong\r\n\r\n"

/-- The handshake of scenario D of the specification. -/
def scenarioD : Bytes := ascii "X-Real-Host: 127.0.0.1:22\r\nX-Split: 1\r\n\r\n"

/-- The zero value `Server{}` of the Go type: the only server state with an empty default
target, since `NewServer` replaces an empty one. -/
def zeroServer : Server :=
  { host := [], port := 0, pass := [], defaultHost := [], running := false, listener := none,
    handlers := [] }

/-- A handshake without any of the three headers. -/
def plainRequest : Bytes := ascii "GET / HTTP/1.1\r\n\r\n"

/-- The host part of a target string or of a dial address: the text before its first
colon, all of it when there is no colon. -/
def hostPart (s : Bytes) : Bytes := (splitTarget s).1

/-- The fields of a dotted name: the text between the dots. -/
def splitDots : Bytes → List Bytes
  | [] => [[]]
  | c :: cs =>
    if c = 46 then [] :: splitDots cs
    else
      match splitDots cs with
      | [] => [[c]]
      | field :: fields => (c :: field) :: fields

/-- A decimal number from 0 to 255. -/
def isOctet (b : Bytes) : Bool :=
  match decimalValue b with
  | some n => decide (n ≤ 255)
  | none => false

/-- A loopback host: exactly `localhost`, or a dotted-quad IPv4 address in `127.0.0.0/8`. -/
def isLoopbackHost (host : Bytes) : Bool :=
  host == ascii "localhost" ||
    match splitDots host with
    | [a, b, c, d] => decimalValue a == some 127 && isOctet b && isOctet c && isOctet d
    | _ => false

/-- A handshake with the right password for `secretServer` and an `X-Split` header. -/
def splitWithPass : Bytes :=
  ascii "X-Pass: secret\r\nX-Split: 1\r\nX-Real-Host: 127.0.0.1:22\r\n\r\n"

/-- A handshake with an `X-Split` header whose value is empty. -/
def emptySplit : Bytes := ascii "X-Real-Host: 127.0.0.1:22\r\nX-Split: \r\n\r\n"

/-- The observable part of a result of `Handle`: the writes on the client, the dialed
addresses, the arguments of `MethodCONNECT` and the number of reads on the client. -/
def observe (res : Option (ConnectionHandler × Server)) :
    Option (List Bytes × List Bytes × List Bytes × Nat) :=
  res.map fun p => (p.1.client.written, p.1.dials, p.1.connects, p.1.client.readCalls)

/-! ## Lemmas on the string library -/

theorem isPrefixOf_nil_right (sub : Bytes) : sub.isPrefixOf ([] : Bytes) = true ↔ sub = [] := by
  cases sub <;> simp [List.isPrefixOf]

theorem indexNat_bound (sub : Bytes) : ∀ (s : Bytes) (i : Nat), indexNat sub s = some i →
    i + sub.length ≤ s.length ∧ sub.isPrefixOf (s.drop i) = true := by
  intro s
  induction s with
  | nil =>
    intro i h
    simp only [indexNat] at h
    split at h
    · rename_i hp
      have hs : sub = [] := (isPrefixOf_nil_right sub).1 hp
      cases h
      subst hs
      simp
    · cases h
  | cons c cs ih =>
    intro i h
    simp only [indexNat] at h
    split at h
    · rename_i hp
      cases h
      refine ⟨?_, by simpa using hp⟩
      have := (List.isPrefixOf_iff_prefix.1 hp).length_le
      simpa using this
    · cases hcs : indexNat sub cs with
      | none => simp [hcs] at h
      | some j =>
        simp [hcs] at h
        subst h
        obtain ⟨h1, h2⟩ := ih j hcs
        refine ⟨?_, by simpa using h2⟩
        simp only [List.length_cons]
        omega

theorem indexNat_single (c : UInt8) : ∀ (pre rest : Bytes), c ∉ pre →
    indexNat [c] (pre ++ c :: rest) = some pre.length := by
  intro pre
  induction pre with
  | nil => intro rest _; simp [indexNat, List.isPrefixOf]
  | cons p ps ih =>
    intro rest hc
    have hp : ¬ c = p := fun h => hc (by simp [h])
    have hps : c ∉ ps := fun h => hc (by simp [h])
    simp [indexNat, List.isPrefixOf, hp, ih rest hps]

theorem afterFirst_eq (sep : Bytes) : ∀ s : Bytes,
    afterFirst sep s = (indexNat sep s).map (fun i => s.drop (i + sep.length)) := by
  intro s
  induction s with
  | nil =>
    simp only [afterFirst, indexNat]
    by_cases h : sep = []
    · subst h; simp
    · have : ¬ sep.isPrefixOf ([] : Bytes) = true := fun hp => h ((isPrefixOf_nil_right sep).1 hp)
      simp [h, this]
  | cons c cs ih =>
    simp only [afterFirst, indexNat]
    split
    · simp
    · rw [ih]
      cases indexNat sep cs with
      | none => simp
      | some j =>
        simp only [Option.map_some', Option.some.injEq]
        have : j + 1 + sep.length = (j + sep.length) + 1 := by omega
        rw [this, List.drop_succ_cons]

theorem beforeFirst_eq (sep : Bytes) : ∀ s : Bytes,
    beforeFirst sep s = (indexNat sep s).map (fun i => s.take i) := by
  intro s
  induction s with
  | nil =>
    simp only [beforeFirst, indexNat]
    by_cases h : sep = []
    · subst h; simp
    · have : ¬ sep.isPrefixOf ([] : Bytes) = true := fun hp => h ((isPrefixOf_nil_right sep).1 hp)
      simp [h, this]
  | cons c cs ih =>
    simp only [beforeFirst, indexNat]
    split
    · simp
    · rw [ih]
      cases indexNat sep cs with
      | none => simp
      | some j => simp

/-- An occurrence of `sub` is found. -/
theorem indexNat_of_occurrence (sub : Bytes) : ∀ (pre t : Bytes),
    ∃ i, indexNat sub (pre ++ sub ++ t) = some i ∧ i ≤ pre.length := by
  intro pre
  induction pre with
  | nil =>
    intro t
    have hp : sub.isPrefixOf (sub ++ t) = true :=
      List.isPrefixOf_iff_prefix.2 (List.prefix_append sub t)
    refine ⟨0, ?_, Nat.le_refl _⟩
    simp only [List.nil_append]
    cases hs : sub ++ t with
    | nil =>
      rw [hs] at hp
      simp [indexNat, hp]
    | cons c cs =>
      rw [hs] at hp
      simp [indexNat, hp]
  | cons c cs ih =>
    intro t
    obtain ⟨j, hj, hle⟩ := ih t
    simp only [List.cons_append, indexNat]
    split
    · exact ⟨0, rfl, Nat.zero_le _⟩
    · refine ⟨j + 1, ?_, by simp only [List.length_cons]; omega⟩
      have hj2 : indexNat sub (cs ++ (sub ++ t)) = some j := by
        simpa [List.append_assoc] using hj
      simp [hj2]

/-- The position found is the first occurrence: the string splits there, and no occurrence
starts earlier. -/
theorem indexNat_first (sub : Bytes) : ∀ (s : Bytes) (i : Nat), indexNat sub s = some i →
    s = s.take i ++ sub ++ s.drop (i + sub.length) ∧
    ∀ pre t : Bytes, s = pre ++ sub ++ t → i ≤ pre.length := by
  intro s i h
  obtain ⟨hlen, hpre⟩ := indexNat_bound sub s i h
  obtain ⟨rest, hrest⟩ := List.isPrefixOf_iff_prefix.1 hpre
  constructor
  · have h1 : s = s.take i ++ s.drop i := (List.take_append_drop i s).symm
    have h2 : s.drop (i + sub.length) = rest := by
      rw [← List.drop_drop, ← hrest]
      simp
    rw [h2, List.append_assoc, hrest]
    exact h1
  · intro pre t hs
    obtain ⟨j, hj, hle⟩ := indexNat_of_occurrence sub pre t
    rw [← hs, h] at hj
    cases hj
    exact hle

/-- `afterFirst` and `beforeFirst` cut a string at the first occurrence of the separator. -/
theorem afterFirst_some (sep s text : Bytes) (h : afterFirst sep s = some text) :
    ∃ pre, beforeFirst sep s = some pre ∧ s = pre ++ sep ++ text ∧
      ∀ pre2 t2 : Bytes, s = pre2 ++ sep ++ t2 → pre.length ≤ pre2.length := by
  rw [afterFirst_eq] at h
  cases hidx : indexNat sep s with
  | none => simp [hidx] at h
  | some i =>
    simp only [hidx, Option.map_some', Option.some.injEq] at h
    obtain ⟨h1, h2⟩ := indexNat_first sep s i hidx
    obtain ⟨hlen, _⟩ := indexNat_bound sep s i hidx
    refine ⟨s.take i, by simp [beforeFirst_eq, hidx], by rw [← h]; exact h1, ?_⟩
    intro pre2 t2 hs
    have := h2 pre2 t2 hs
    simp only [List.length_take]
    omega

/-- `afterFirst` finds nothing exactly when the separator does not occur. -/
theorem afterFirst_none (sep s : Bytes) :
    afterFirst sep s = none ↔ ¬ ∃ pre t : Bytes, s = pre ++ sep ++ t := by
  rw [afterFirst_eq]
  constructor
  · intro h ⟨pre, t, hs⟩
    obtain ⟨j, hj, _⟩ := indexNat_of_occurrence sep pre t
    rw [← hs] at hj
    simp [hj] at h
  · intro h
    cases hidx : indexNat sep s with
    | none => rfl
    | some i =>
      exact absurd ⟨_, _, (indexNat_first sep s i hidx).1⟩ h

theorem sliceFrom_nat (s : Bytes) (n : Nat) (h : n ≤ s.length) :
    sliceFrom s (n : Int) = some (s.drop n) := by
  have h1 : (0 : Int) ≤ (n : Int) ∧ (n : Int) ≤ (s.length : Int) := ⟨by omega, by omega⟩
  simp [sliceFrom, h1]

theorem sliceTo_nat (s : Bytes) (n : Nat) (h : n ≤ s.length) :
    sliceTo s (n : Int) = some (s.take n) := by
  have h1 : (0 : Int) ≤ (n : Int) ∧ (n : Int) ≤ (s.length : Int) := ⟨by omega, by omega⟩
  simp [sliceTo, h1]

theorem Index_some (s sub : Bytes) (i : Nat) (h : indexNat sub s = some i) :
    Index s sub = (i : Int) := by
  simp [Index, h]

theorem Index_none (s sub : Bytes) (h : indexNat sub s = none) : Index s sub = -1 := by
  simp [Index, h]

theorem ascii_colon_space : ascii ": " = [58, 32] := by decide

theorem ascii_colon : ascii ":" = [58] := by decide

theorem ascii_crlf : ascii "\r\n" = [13, 10] := by decide

/-- The last step of the scanner: cut the text at its first occurrence of `sep`. -/
theorem upToFirst_eq (text sep : Bytes) :
    (if Index text sep = -1 then some [] else sliceTo text (Index text sep)) =
      some (match beforeFirst sep text with
        | none => []
        | some value => value) := by
  rw [beforeFirst_eq]
  cases hcr : indexNat sep text with
  | none => simp [Index_none _ _ hcr]
  | some j =>
    obtain ⟨hj, _⟩ := indexNat_bound _ _ _ hcr
    have hne2 : ¬ ((j : Int) = -1) := by omega
    have hj2 : j ≤ text.length := by omega
    simp [Index_some _ _ _ hcr, hne2, sliceTo_nat _ _ hj2]

/-- The scanner when `"<name>: "` does not occur in the buffer. -/
theorem FindHeader_absent (head name : Bytes)
    (hidx : indexNat (name ++ ascii ": ") head = none) : FindHeader head name = some [] := by
  simp [FindHeader, Index_none _ _ hidx]

/-- The scanner when `"<name>: "` first occurs at position `i`, for a name without a colon:
both slices are in range and the value is cut from the text after the occurrence. -/
theorem FindHeader_found (head name : Bytes) (hname : (58 : UInt8) ∉ name) (i : Nat)
    (hidx : indexNat (name ++ ascii ": ") head = some i) :
    FindHeader head name =
      some (match beforeFirst (ascii "\r\n") (head.drop (i + (name ++ ascii ": ").length)) with
        | none => []
        | some value => value) := by
  unfold FindHeader
  obtain ⟨hlen, hpre⟩ := indexNat_bound _ _ _ hidx
  have hi : i ≤ head.length := by omega
  obtain ⟨rest, hrest⟩ := List.isPrefixOf_iff_prefix.1 hpre
  have hlen2 : (name ++ ascii ": ").length = name.length + 2 := by
    simp [ascii_colon_space]
  have hcolon : indexNat (ascii ":") (head.drop i) = some name.length := by
    rw [← hrest, ascii_colon, ascii_colon_space]
    have := indexNat_single 58 name (32 :: rest) hname
    simpa using this
  have hne : ¬ ((i : Int) = -1) := by omega
  simp only [Index_some _ _ _ hidx, hne, if_false, sliceFrom_nat _ _ hi, Option.some_bind,
    Index_some _ _ _ hcolon]
  have hcast : ((name.length : Int) + (i : Int) + 2) =
      ((i + (name ++ ascii ": ").length : Nat) : Int) := by
    rw [hlen2]; push_cast; omega
  rw [hcast, sliceFrom_nat _ _ hlen]
  simp only [Option.some_bind]
  exact upToFirst_eq _ _

/-- The scanner agrees with its reference definition for a header name without a colon. -/
theorem FindHeader_eq_ref (head name : Bytes) (hname : (58 : UInt8) ∉ name) :
    FindHeader head name = some (FindHeaderRef head name) := by
  unfold FindHeaderRef
  rw [afterFirst_eq]
  cases hidx : indexNat (name ++ ascii ": ") head with
  | none => exact FindHeader_absent head name hidx
  | some i => exact FindHeader_found head name hname i hidx

/-- Claim C1. For every buffer and every header name without a colon, `FindHeader` returns
(no slice is out of range) and its value is the reference definition: empty when
`"<name>: "` does not occur, else the text after its first occurrence up to its first CRLF,
empty when there is no CRLF. -/
theorem FindHeader_refines_reference (head name : Bytes) (hname : (58 : UInt8) ∉ name) :
    FindHeader head name = some (FindHeaderRef head name) := by
  unfold FindHeaderRef
  rw [afterFirst_eq]
  cases hidx : indexNat (name ++ ascii ": ") head with
  | none =>
    simp only [Option.map_none']
    exact FindHeader_absent head name hidx
  | some i =>
    simp only [Option.map_some']
    exact FindHeader_found head name hname i hidx

theorem FindHeader_refines_reference_witness :
    (58 : UInt8) ∉ ascii "X-Real-Host" ∧
    FindHeader (ascii "GET / HTTP/1.1\r\nX-Real-Host: 127.0.0.1:22\r\nX-Pass: pw\r\n\r\n")
        (ascii "X-Real-Host")
      = some (FindHeaderRef (ascii "GET / HTTP/1.1\r\nX-Real-Host: 127.0.0.1:22\r\nX-Pass: pw\r\n\r\n")
          (ascii "X-Real-Host")) ∧
    FindHeaderRef (ascii "GET / HTTP/1.1\r\nX-Real-Host: 127.0.0.1:22\r\nX-Pass: pw\r\n\r\n")
        (ascii "X-Real-Host") = ascii "127.0.0.1:22" :=
  ⟨by decide, FindHeader_refines_reference _ _ (by decide), by decide⟩

/-! ## Target resolution -/

theorem indexNat_single_none (c : UInt8) : ∀ s : Bytes, c ∉ s → indexNat [c] s = none := by
  intro s
  induction s with
  | nil => intro _; simp [indexNat, List.isPrefixOf]
  | cons p ps ih =>
    intro hc
    have hp : ¬ c = p := fun h => hc (by simp [h])
    have hps : c ∉ ps := fun h => hc (by simp [h])
    simp [indexNat, List.isPrefixOf, hp, ih hps]

theorem splitTarget_colon (a b : Bytes) (ha : (58 : UInt8) ∉ a) :
    splitTarget (a ++ 58 :: b) = (a, b) := by
  unfold splitTarget
  rw [ascii_colon, indexNat_single 58 a b ha]
  simp

theorem splitTarget_no_colon (s : Bytes) (hs : (58 : UInt8) ∉ s) :
    splitTarget s = (s, ascii "443") := by
  unfold splitTarget
  rw [ascii_colon, indexNat_single_none 58 s hs]

/-- The slices of `ConnectTarget` are in range, and it dials `dialAddress`. -/
theorem ConnectTarget_eq (h : ConnectionHandler) (env : Env) (host : Bytes) :
    ConnectTarget h env host =
      some (match dialAddress host with
        | none => (h, some ConnectError.invalidPortFormat)
        | some addr => dialResult h env addr) := by
  unfold ConnectTarget dialAddress splitTarget dialResult
  cases hidx : indexNat (ascii ":") host with
  | none =>
    simp only [Index_none _ _ hidx, ne_eq, not_true_eq_false, if_false, Option.some_bind]
    cases Atoi (ascii "443") with
    | none => simp
    | some v => simp only [Option.map_some']; cases env.dial (host ++ ascii ":" ++ fmtInt v) <;> rfl
  | some i =>
    obtain ⟨hlen, _⟩ := indexNat_bound _ _ _ hidx
    have hl : (ascii ":").length = 1 := by decide
    have hi : i ≤ host.length := by omega
    have hi1 : i + 1 ≤ host.length := by omega
    have hne : ¬ ((i : Int) = -1) := by omega
    have hcast : ((i : Int) + 1) = ((i + 1 : Nat) : Int) := by push_cast; rfl
    simp only [Index_some _ _ _ hidx, ne_eq, hne, not_false_eq_true, if_true, sliceTo_nat _ _ hi,
      hcast, sliceFrom_nat _ _ hi1, Option.some_bind]
    cases Atoi (List.drop (i + 1) host) with
    | none => simp
    | some v =>
      simp only [Option.map_some']
      cases env.dial (List.take i host ++ ascii ":" ++ fmtInt v) <;> rfl

theorem digit_fin : ∀ v : Fin 256,
    isDigit (UInt8.mk (BitVec.ofFin v)) = true →
      ¬ (UInt8.mk (BitVec.ofFin v) - 48 > 9) ∧
      (UInt8.mk (BitVec.ofFin v) - 48).toNat = (UInt8.mk (BitVec.ofFin v)).toNat - 48 ∧
      ¬ (UInt8.mk (BitVec.ofFin v) = 45 ∨ UInt8.mk (BitVec.ofFin v) = 43) ∧
      ¬ UInt8.mk (BitVec.ofFin v) = 45 := by
  decide!

theorem digit_byte (c : UInt8) (h : isDigit c = true) :
    ¬ (c - 48 > 9) ∧ (c - 48).toNat = c.toNat - 48 ∧ ¬ (c = 45 ∨ c = 43) ∧ ¬ c = 45 := by
  rcases c with ⟨⟨v⟩⟩
  exact digit_fin v h

theorem parseDigits_digits : ∀ (s : Bytes) (n : Nat), s.all isDigit = true →
    parseDigits s n = some (s.foldl (fun n c => n * 10 + (c.toNat - 48)) n) := by
  intro s
  induction s with
  | nil => intro n _; rfl
  | cons c cs ih =>
    intro n h
    simp only [List.all_cons, Bool.and_eq_true] at h
    obtain ⟨h1, h2, _, _⟩ := digit_byte c h.1
    simp only [parseDigits, h1, if_false, List.foldl_cons, h2]
    exact ih _ h.2

/-- `strconv.Atoi` accepts a non-empty string of decimal digits whose value fits an `int`,
with that value. -/
theorem Atoi_decimal (b : Bytes) (n : Nat) (hb : decimalValue b = some n)
    (hn : n < 2 ^ (intSize - 1)) : Atoi b = some (n : Int) := by
  unfold decimalValue at hb
  split at hb
  · rename_i hd
    cases hb
    obtain ⟨hne, hall⟩ := hd
    cases b with
    | nil => exact absurd rfl hne
    | cons c rest =>
      have hc : isDigit c = true := by
        simp only [List.all_cons, Bool.and_eq_true] at hall
        exact hall.1
      obtain ⟨_, _, h3, h4⟩ := digit_byte c hc
      have hp := parseDigits_digits (c :: rest) 0 hall
      have h43 : ¬ c = 43 := fun h => h3 (Or.inr h)
      unfold digitsValue at hn
      simp only [Atoi, h4, h43, or_self, if_false, hp]
      simp only [digitsValue, hn, if_true]
      simp
  · cases hb

theorem fmtInt_443 : ascii ":" ++ fmtInt 443 = ascii ":443" := by decide

theorem Atoi_443 : Atoi (ascii "443") = some 443 := by decide

theorem dialAddress_no_colon (s : Bytes) (hs : (58 : UInt8) ∉ s) :
    dialAddress s = some (s ++ ascii ":443") := by
  unfold dialAddress
  rw [splitTarget_no_colon s hs]
  simp only [Atoi_443, Option.map_some', List.append_assoc, fmtInt_443]

theorem dialAddress_colon (a b : Bytes) (ha : (58 : UInt8) ∉ a) :
    dialAddress (a ++ 58 :: b) = (Atoi b).map fun port => a ++ ascii ":" ++ fmtInt port := by
  unfold dialAddress
  rw [splitTarget_colon a b ha]

/-- Claim C6, as stated, fails: for the target `h:-5` the port text is not a non-negative
integer, so the resolver of the specification gives a format error, but `ConnectTarget`
passes `h:-5` to `net.Dial` and returns the dial error; for the target
`h:99999999999999999999` the port text is a non-negative integer, but `ConnectTarget`
returns the format error. -/
theorem ConnectTarget_not_ResolveRef :
    (ResolveRef (ascii "h:-5") = Resolved.formatError ∧
      ConnectTarget (NewConnectionHandler 0 (freshConn [])) deadEnv (ascii "h:-5") =
        some ({ NewConnectionHandler 0 (freshConn []) with dials := [ascii "h:-5"] },
              some (ConnectError.dialFailed (ascii "h:-5")))) ∧
    (ResolveRef (ascii "h:99999999999999999999") = Resolved.target (ascii "h") 99999999999999999999 ∧
      ConnectTarget (NewConnectionHandler 0 (freshConn [])) deadEnv (ascii "h:99999999999999999999") =
        some (NewConnectionHandler 0 (freshConn []), some ConnectError.invalidPortFormat)) := by
  decide!

/-- Claim C6, amended. A target string without a colon is dialed as `<string>:443`. A target
string with a colon is split at the first colon into host and port text; when
`strconv.Atoi` accepts the port text with value `n` the address `<host>:<n>` is dialed, `n`
printed by `%d` (so a negative `n` is dialed too); when `strconv.Atoi` refuses the port text
`ConnectTarget` returns the invalid-port-format error, dials nothing and leaves the handler
as it was. A non-empty string of decimal digits with a value below `2^63` is accepted with
that value. -/
theorem ConnectTarget_resolves (h : ConnectionHandler) (env : Env) :
    (∀ s : Bytes, (58 : UInt8) ∉ s →
      ConnectTarget h env s = some (dialResult h env (s ++ ascii ":443"))) ∧
    (∀ a b : Bytes, (58 : UInt8) ∉ a →
      (∀ n : Int, Atoi b = some n →
        ConnectTarget h env (a ++ 58 :: b) = some (dialResult h env (a ++ ascii ":" ++ fmtInt n))) ∧
      (Atoi b = none →
        ConnectTarget h env (a ++ 58 :: b) = some (h, some ConnectError.invalidPortFormat)) ∧
      (∀ n : Nat, decimalValue b = some n → n < 2 ^ 63 →
        ConnectTarget h env (a ++ 58 :: b) = some (dialResult h env (a ++ ascii ":" ++ fmtNat n)))) := by
  refine ⟨?_, ?_⟩
  · intro s hs
    rw [ConnectTarget_eq, dialAddress_no_colon s hs]
  · intro a b ha
    refine ⟨?_, ?_, ?_⟩
    · intro n hn
      rw [ConnectTarget_eq, dialAddress_colon a b ha, hn]
      rfl
    · intro hn
      rw [ConnectTarget_eq, dialAddress_colon a b ha, hn]
      rfl
    · intro n hb hn
      have hA := Atoi_decimal b n hb (by simpa [intSize] using hn)
      rw [ConnectTarget_eq, dialAddress_colon a b ha, hA]
      rfl

theorem ConnectTarget_resolves_witness :
    ((58 : UInt8) ∉ ascii "example.com" ∧
      ConnectTarget (NewConnectionHandler 0 (freshConn [])) deadEnv (ascii "example.com") =
        some (dialResult (NewConnectionHandler 0 (freshConn [])) deadEnv (ascii "example.com" ++ ascii ":443"))) ∧
    ((58 : UInt8) ∉ ascii "127.0.0.1" ∧ Atoi (ascii "-5") = some (-5) ∧
      ascii "127.0.0.1" ++ 58 :: ascii "-5" = ascii "127.0.0.1:-5" ∧
      ascii "127.0.0.1" ++ ascii ":" ++ fmtInt (-5) = ascii "127.0.0.1:-5" ∧
      ConnectTarget (NewConnectionHandler 0 (freshConn [])) deadEnv (ascii "127.0.0.1" ++ 58 :: ascii "-5") =
        some (dialResult (NewConnectionHandler 0 (freshConn [])) deadEnv
          (ascii "127.0.0.1" ++ ascii ":" ++ fmtInt (-5)))) ∧
    (Atoi (ascii "ssh") = none ∧
      ConnectTarget (NewConnectionHandler 0 (freshConn [])) deadEnv (ascii "127.0.0.1" ++ 58 :: ascii "ssh") =
        some (NewConnectionHandler 0 (freshConn []), some ConnectError.invalidPortFormat)) ∧
    (decimalValue (ascii "22") = some 22 ∧
      ascii "127.0.0.1" ++ ascii ":" ++ fmtNat 22 = ascii "127.0.0.1:22" ∧
      ConnectTarget (NewConnectionHandler 0 (freshConn [])) deadEnv (ascii "127.0.0.1" ++ 58 :: ascii "22") =
        some (dialResult (NewConnectionHandler 0 (freshConn [])) deadEnv
          (ascii "127.0.0.1" ++ ascii ":" ++ fmtNat 22))) :=
  ⟨⟨by decide, (ConnectTarget_resolves _ deadEnv).1 (ascii "example.com") (by decide)⟩,
   ⟨by decide, by decide, by decide, by decide,
    ((ConnectTarget_resolves _ deadEnv).2 (ascii "127.0.0.1") (ascii "-5") (by decide)).1 (-5)
      (by decide)⟩,
   ⟨by decide,
    ((ConnectTarget_resolves _ deadEnv).2 (ascii "127.0.0.1") (ascii "ssh") (by decide)).2.1
      (by decide)⟩,
   ⟨by decide, by decide,
    ((ConnectTarget_resolves _ deadEnv).2 (ascii "127.0.0.1") (ascii "22") (by decide)).2.2 22
      (by decide) (by decide)⟩⟩

/-! ## Closing a handler -/

theorem Close_of_closed (h : ConnectionHandler) (hc : h.clientClosed = true)
    (ht : h.targetClosed = true) : ConnectionHandler.Close h = some h := by
  simp [ConnectionHandler.Close, hc, ht]

theorem Close_flags (h h1 : ConnectionHandler) (hh : ConnectionHandler.Close h = some h1) :
    h1.clientClosed = true ∧ h1.targetClosed = true := by
  unfold ConnectionHandler.Close at hh
  cases hc : h.clientClosed <;> cases ht : h.targetClosed <;> cases htg : h.target <;>
    simp [hc, ht, htg] at hh <;> subst hh <;> simp [hc, ht]

theorem closeTimes_of_closed (n : Nat) (h : ConnectionHandler) (hc : h.clientClosed = true)
    (ht : h.targetClosed = true) : closeTimes n h = some h := by
  induction n with
  | zero => rfl
  | succ k ih => simp [closeTimes, Close_of_closed h hc ht, ih]

theorem closeTimes_eq_Close (n : Nat) (hn : 1 ≤ n) (h : ConnectionHandler) :
    closeTimes n h = ConnectionHandler.Close h := by
  cases n with
  | zero => omega
  | succ k =>
    simp only [closeTimes]
    cases hh : ConnectionHandler.Close h with
    | none => rfl
    | some h1 =>
      obtain ⟨hc, ht⟩ := Close_flags h h1 hh
      simp [closeTimes_of_closed k h1 hc ht]

/-- `Close` on a handler whose target was never opened: one `Close` call on the client
socket, the target untouched. -/
theorem Close_no_target (h : ConnectionHandler) (hc : h.clientClosed = false)
    (ht : h.targetClosed = true) :
    ConnectionHandler.Close h =
      some { h with client := h.client.Close, clientClosed := true } := by
  simp [ConnectionHandler.Close, hc, ht]

/-- `Close` on a handler with an open target: one `Close` call on each socket. -/
theorem Close_with_target (h : ConnectionHandler) (t : Conn) (hc : h.clientClosed = false)
    (ht : h.targetClosed = false) (htg : h.target = some t) :
    ConnectionHandler.Close h =
      some { h with client := h.client.Close, clientClosed := true,
                    target := some t.Close, targetClosed := true } := by
  simp [ConnectionHandler.Close, hc, ht, htg]

/-- Claim C5. From `NewConnectionHandler`, with or without a `ConnectTarget` call (which
always returns), `N ≥ 1` calls of `Close` in sequence never dereference a nil target and
leave the state of a single `Close`; in that state the client socket has had exactly one
`Close` call more than before, the target socket exactly one when the dial succeeded, and
the target stays absent when no dial succeeded. -/
theorem Close_idempotent (id : Nat) (client : Conn) (env : Env) (host : Bytes) (N : Nat)
    (hN : 1 ≤ N) :
    (∃ h1, ConnectionHandler.Close (NewConnectionHandler id client) = some h1 ∧
        closeTimes N (NewConnectionHandler id client) = some h1 ∧
        h1.client.closeCalls = client.closeCalls + 1 ∧ h1.target = none) ∧
    (∃ h err, ConnectTarget (NewConnectionHandler id client) env host = some (h, err) ∧
      ∃ h1, ConnectionHandler.Close h = some h1 ∧ closeTimes N h = some h1 ∧
        h1.client.closeCalls = client.closeCalls + 1 ∧
        (err = none →
          ∃ t, h.target = some t ∧ h1.target = some t.Close ∧
            t.Close.closeCalls = t.closeCalls + 1) ∧
        (err ≠ none → h.target = none ∧ h1.target = none)) := by
  constructor
  · refine ⟨_, Close_no_target _ rfl rfl, ?_, rfl, rfl⟩
    rw [closeTimes_eq_Close N hN, Close_no_target _ rfl rfl]
  · rw [ConnectTarget_eq]
    cases hd : dialAddress host with
    | none =>
      refine ⟨_, _, rfl, _, Close_no_target _ rfl rfl, ?_, rfl, ?_, ?_⟩
      · rw [closeTimes_eq_Close N hN, Close_no_target _ rfl rfl]
      · intro h; cases h
      · intro _; exact ⟨rfl, rfl⟩
    | some addr =>
      simp only [dialResult]
      cases hdial : env.dial addr with
      | none =>
        refine ⟨_, _, rfl, _, Close_no_target _ rfl rfl, ?_, rfl, ?_, ?_⟩
        · rw [closeTimes_eq_Close N hN, Close_no_target _ rfl rfl]
        · intro h; cases h
        · intro _; exact ⟨rfl, rfl⟩
      | some conn =>
        refine ⟨_, _, rfl, _, Close_with_target _ conn rfl rfl rfl, ?_, rfl, ?_, ?_⟩
        · rw [closeTimes_eq_Close N hN, Close_with_target _ conn rfl rfl rfl]
        · intro _; exact ⟨conn, rfl, rfl, rfl⟩
        · intro h; exact absurd rfl h

theorem Close_idempotent_witness :
    (∃ h1, ConnectionHandler.Close (NewConnectionHandler 7 (freshConn [])) = some h1 ∧
        closeTimes 3 (NewConnectionHandler 7 (freshConn [])) = some h1 ∧
        h1.client.closeCalls = (freshConn []).closeCalls + 1 ∧ h1.target = none) ∧
    (∃ h err,
      ConnectTarget (NewConnectionHandler 7 (freshConn []))
          { dial := fun _ => some (freshConn []), events := [] } (ascii "127.0.0.1:22") =
        some (h, err) ∧
      ∃ h1, ConnectionHandler.Close h = some h1 ∧ closeTimes 3 h = some h1 ∧
        h1.client.closeCalls = (freshConn []).closeCalls + 1 ∧
        (err = none →
          ∃ t, h.target = some t ∧ h1.target = some t.Close ∧
            t.Close.closeCalls = t.closeCalls + 1) ∧
        (err ≠ none → h.target = none ∧ h1.target = none)) :=
  Close_idempotent 7 (freshConn []) { dial := fun _ => some (freshConn []), events := [] }
    (ascii "127.0.0.1:22") 3 (by decide)

/-! ## Closing the server -/

theorem Close_spec (h : ConnectionHandler) (hwf : h.WF) :
    ∃ h1, ConnectionHandler.Close h = some h1 ∧ ClosedFrom h h1 := by
  unfold ConnectionHandler.WF at hwf
  unfold ConnectionHandler.Close ClosedFrom ConnectionHandler.targetCloseCalls
  cases hc : h.clientClosed <;> cases ht : h.targetClosed <;> cases htg : h.target <;>
    simp_all [Conn.Close]

theorem closeAll_spec : ∀ hs : List ConnectionHandler, (∀ h ∈ hs, h.WF) →
    ∃ hs1, closeAll hs = some hs1 ∧ List.Forall₂ ClosedFrom hs hs1 := by
  intro hs
  induction hs with
  | nil => intro _; exact ⟨[], rfl, List.Forall₂.nil⟩
  | cons h t ih =>
    intro hwf
    obtain ⟨h1, e1, r1⟩ := Close_spec h (hwf h (by simp))
    obtain ⟨t1, e2, r2⟩ := ih (fun x hx => hwf x (by simp [hx]))
    exact ⟨h1 :: t1, by simp [closeAll, e1, e2], List.Forall₂.cons r1 r2⟩

theorem closeAll_of_closed : ∀ hs : List ConnectionHandler,
    (∀ h ∈ hs, h.clientClosed = true ∧ h.targetClosed = true) → closeAll hs = some hs := by
  intro hs
  induction hs with
  | nil => intro _; rfl
  | cons h t ih =>
    intro hcl
    have e1 := Close_of_closed h (hcl h (by simp)).1 (hcl h (by simp)).2
    have e2 := ih (fun x hx => hcl x (by simp [hx]))
    simp [closeAll, e1, e2]

theorem Forall₂_ClosedFrom_closed : ∀ hs hs1 : List ConnectionHandler,
    List.Forall₂ ClosedFrom hs hs1 →
      (∀ h ∈ hs1, h.clientClosed = true ∧ h.targetClosed = true) ∧
      hs1.map ConnectionHandler.id = hs.map ConnectionHandler.id := by
  intro hs hs1 hr
  induction hr with
  | nil => simp
  | cons r _ ih =>
    obtain ⟨hid, hc, ht, _⟩ := r
    refine ⟨?_, by simp [hid, ih.2]⟩
    intro x hx
    rcases List.mem_cons.1 hx with rfl | hx
    · exact ⟨hc, ht⟩
    · exact ih.1 x hx

/-- Claim C9. For every server state, with or without a listener, whose registered handlers
satisfy the handler invariant, `Close` returns a state with `running` false and the same
registry membership, in which every registered handler went through one `Close` (one close
call on each socket still open, none on a closed one); a second `Close` returns too and
leaves `running`, the presence of the listener and the whole registry, close counts of the
sockets included, as the first left them: it only calls `Close` on the listener again. -/
theorem Server_Close_idempotent (s : Server) (hwf : ∀ h ∈ s.handlers, h.WF) :
    ∃ s1, Server.Close s = some s1 ∧
      s1.running = false ∧
      s1.listener = s.listener.map Listener.Close ∧
      s1.handlers.map ConnectionHandler.id = s.handlers.map ConnectionHandler.id ∧
      List.Forall₂ ClosedFrom s.handlers s1.handlers ∧
      ∃ s2, Server.Close s1 = some s2 ∧
        s2 = { s1 with listener := s1.listener.map Listener.Close } ∧
        s2.running = s1.running ∧ s2.listener.isSome = s.listener.isSome ∧
        s2.handlers = s1.handlers ∧ (s.listener = none → s2 = s1) := by
  obtain ⟨hs1, e1, r1⟩ := closeAll_spec s.handlers hwf
  obtain ⟨hclosed, hids⟩ := Forall₂_ClosedFrom_closed _ _ r1
  have e2 := closeAll_of_closed hs1 hclosed
  cases hl : s.listener with
  | none =>
    refine ⟨{ s with running := false, handlers := hs1 }, ?_, rfl, ?_, hids, r1, ?_⟩
    · simp [Server.Close, hl, e1]
    · simp [hl]
    · refine ⟨{ s with running := false, handlers := hs1 }, ?_, ?_, rfl, ?_, rfl, fun _ => rfl⟩
      · simp [Server.Close, hl, e2]
      · simp [hl]
      · simp [hl]
  | some l =>
    refine ⟨{ s with running := false, listener := some l.Close, handlers := hs1 },
      ?_, rfl, ?_, hids, r1, ?_⟩
    · simp [Server.Close, hl, e1]
    · simp
    · refine ⟨{ s with running := false, listener := some l.Close.Close, handlers := hs1 },
        ?_, ?_, rfl, ?_, rfl, ?_⟩
      · simp [Server.Close, e2]
      · simp
      · simp
      · intro h; cases h

theorem Server_Close_idempotent_witness :
    (∀ h ∈ exampleServer.handlers, h.WF) ∧
    ∃ s1, Server.Close exampleServer = some s1 ∧
      s1.running = false ∧
      s1.listener = exampleServer.listener.map Listener.Close ∧
      s1.handlers.map ConnectionHandler.id = exampleServer.handlers.map ConnectionHandler.id ∧
      List.Forall₂ ClosedFrom exampleServer.handlers s1.handlers ∧
      ∃ s2, Server.Close s1 = some s2 ∧
        s2 = { s1 with listener := s1.listener.map Listener.Close } ∧
        s2.running = s1.running ∧ s2.listener.isSome = exampleServer.listener.isSome ∧
        s2.handlers = s1.handlers ∧ (exampleServer.listener = none → s2 = s1) :=
  ⟨by decide, Server_Close_idempotent exampleServer (by decide)⟩

/-! ## The relay loop -/

theorem Write_noFail (c : Conn) (d : Bytes) (hc : c.NoWriteFails) :
    (c.Write d).1 = true ∧ (c.Write d).2.written = c.written ++ [d] ∧
      (c.Write d).2.NoWriteFails := by
  unfold Conn.NoWriteFails at *
  unfold Conn.Write
  cases hw : c.writeErrs with
  | nil => simp [hw]
  | cons e rest =>
    have he : e = false := hc e (by simp [hw])
    refine ⟨by simp [he], by simp, ?_⟩
    intro x hx
    exact hc x (by simp only [hw]; exact List.mem_cons_of_mem _ hx)

/-- Claim C10. The coordinating loop of `DoCONNECT`, run on a finite sequence of events
with no failing write, returns; the writes made on the target socket are, in order, the
payloads of the client-data events that precede the first error event, the writes made on
the client socket are, in order, the payloads of the target-data events that precede the
first error event (so the bytes written are their concatenations), and no event after the
first error event is written. -/
theorem DoCONNECT_preserves_order (events : List RelayEvent) :
    ∀ (h : ConnectionHandler) (t : Conn), h.target = some t →
      h.client.NoWriteFails → t.NoWriteFails →
      ∃ h1 t1, DoCONNECT h events = some h1 ∧ h1.target = some t1 ∧
        t1.written = t.written ++ clientPayloads (beforeError events) ∧
        h1.client.written = h.client.written ++ targetPayloads (beforeError events) ∧
        t1.written.flatten = t.written.flatten ++ (clientPayloads (beforeError events)).flatten ∧
        h1.client.written.flatten =
          h.client.written.flatten ++ (targetPayloads (beforeError events)).flatten := by
  induction events with
  | nil =>
    intro h t ht _ _
    exact ⟨h, t, rfl, ht, by simp [beforeError, clientPayloads],
      by simp [beforeError, targetPayloads], by simp [beforeError, clientPayloads],
      by simp [beforeError, targetPayloads]⟩
  | cons e rest ih =>
    intro h t ht hc htw
    cases e with
    | error =>
      exact ⟨h, t, rfl, ht, by simp [beforeError, clientPayloads, RelayEvent.isError],
        by simp [beforeError, targetPayloads, RelayEvent.isError],
        by simp [beforeError, clientPayloads, RelayEvent.isError],
        by simp [beforeError, targetPayloads, RelayEvent.isError]⟩
    | clientData d =>
      obtain ⟨w1, w2, w3⟩ := Write_noFail t d htw
      obtain ⟨h1, t1, e1, e2, e3, e4, e5, e6⟩ :=
        ih { h with target := some (t.Write d).2 } (t.Write d).2 rfl hc w3
      refine ⟨h1, t1, ?_, e2, ?_, ?_, ?_, ?_⟩
      · simp only [DoCONNECT, ht, w1, if_true]
        exact e1
      · rw [e3, w2]
        simp [beforeError, clientPayloads, RelayEvent.isError]
      · rw [e4]
        simp [beforeError, targetPayloads, RelayEvent.isError]
      · rw [e5, w2]
        simp [beforeError, clientPayloads, RelayEvent.isError]
      · rw [e6]
        simp [beforeError, targetPayloads, RelayEvent.isError]
    | targetData d =>
      obtain ⟨w1, w2, w3⟩ := Write_noFail h.client d hc
      obtain ⟨h1, t1, e1, e2, e3, e4, e5, e6⟩ :=
        ih { h with client := (h.client.Write d).2 } t ht w3 htw
      refine ⟨h1, t1, ?_, e2, ?_, ?_, ?_, ?_⟩
      · simp only [DoCONNECT, w1, if_true]
        exact e1
      · rw [e3]
        simp [beforeError, clientPayloads, RelayEvent.isError]
      · rw [e4, w2]
        simp [beforeError, targetPayloads, RelayEvent.isError]
      · rw [e5]
        simp [beforeError, clientPayloads, RelayEvent.isError]
      · rw [e6, w2]
        simp [beforeError, targetPayloads, RelayEvent.isError]

theorem DoCONNECT_preserves_order_witness :
    relayingHandler.target = some (freshConn []) ∧
    relayingHandler.client.NoWriteFails ∧ (freshConn []).NoWriteFails ∧
    clientPayloads (beforeError exampleEvents) = [ascii "SSH-2.0-c\r\n", ascii "kex"] ∧
    targetPayloads (beforeError exampleEvents) = [ascii "SSH-2.0-s\r\n"] ∧
    ∃ h1 t1, DoCONNECT relayingHandler exampleEvents = some h1 ∧ h1.target = some t1 ∧
      t1.written = (freshConn []).written ++ clientPayloads (beforeError exampleEvents) ∧
      h1.client.written =
        relayingHandler.client.written ++ targetPayloads (beforeError exampleEvents) ∧
      t1.written.flatten =
        (freshConn []).written.flatten ++ (clientPayloads (beforeError exampleEvents)).flatten ∧
      h1.client.written.flatten =
        relayingHandler.client.written.flatten ++
          (targetPayloads (beforeError exampleEvents)).flatten :=
  ⟨by decide, by decide, by decide, by decide, by decide,
   DoCONNECT_preserves_order exampleEvents relayingHandler (freshConn []) (by decide)
     (by decide) (by decide)⟩

/-! ## The handshake -/

theorem Write_frame (c : Conn) (d : Bytes) :
    (c.Write d).2.written = c.written ++ [d] ∧ (c.Write d).2.readCalls = c.readCalls ∧
      (c.Write d).2.closeCalls = c.closeCalls := by
  unfold Conn.Write
  cases c.writeErrs <;> simp

theorem Read_frame (c : Conn) (n : Nat) :
    (c.Read n).2.written = c.written ∧ (c.Read n).2.readCalls = c.readCalls + 1 ∧
      (c.Read n).2.closeCalls = c.closeCalls := by
  unfold Conn.Read
  rcases hi : c.incoming with _ | ⟨_ | d, rest⟩ <;> simp

/-- The relay loop returns when the target is present; it keeps everything of the handler
but the two sockets, and what it writes to the client are payloads of target-data events. -/
theorem DoCONNECT_frame (events : List RelayEvent) :
    ∀ h : ConnectionHandler, h.target.isSome = true →
      ∃ h1, DoCONNECT h events = some h1 ∧ h1.id = h.id ∧ h1.connects = h.connects ∧
        h1.dials = h.dials ∧ h1.clientClosed = h.clientClosed ∧
        h1.targetClosed = h.targetClosed ∧ h1.target.isSome = true ∧
        h1.client.readCalls = h.client.readCalls ∧
        ∃ relayed, h1.client.written = h.client.written ++ relayed ∧
          ∀ d ∈ relayed, RelayEvent.targetData d ∈ events := by
  induction events with
  | nil =>
    intro h ht
    exact ⟨h, rfl, rfl, rfl, rfl, rfl, rfl, ht, rfl, [], by simp, by simp⟩
  | cons e rest ih =>
    intro h ht
    cases e with
    | error => exact ⟨h, rfl, rfl, rfl, rfl, rfl, rfl, ht, rfl, [], by simp, by simp⟩
    | clientData d =>
      obtain ⟨t, htt⟩ := Option.isSome_iff_exists.1 ht
      simp only [DoCONNECT, htt]
      cases hw : (t.Write d).1 with
      | false =>
        exact ⟨{ h with target := some (t.Write d).2 }, by simp, rfl, rfl, rfl, rfl, rfl, rfl,
          rfl, [], by simp, by simp⟩
      | true =>
        obtain ⟨h1, e1, e2, e3, e4, e5, e6, e7, e8, rel, e9, e10⟩ :=
          ih { h with target := some (t.Write d).2 } rfl
        refine ⟨h1, by simpa using e1, e2, e3, e4, e5, e6, e7, e8, rel, e9, ?_⟩
        intro x hx
        exact List.mem_cons_of_mem _ (e10 x hx)
    | targetData d =>
      obtain ⟨w1, w2, _⟩ := Write_frame h.client d
      simp only [DoCONNECT]
      cases hw : (h.client.Write d).1 with
      | false =>
        refine ⟨{ h with client := (h.client.Write d).2 }, by simp, rfl, rfl, rfl, rfl, rfl, ht,
          w2, [d], by simpa using w1, ?_⟩
        intro x hx
        simp at hx
        simp [hx]
      | true =>
        obtain ⟨h1, e1, e2, e3, e4, e5, e6, e7, e8, rel, e9, e10⟩ :=
          ih { h with client := (h.client.Write d).2 } ht
        refine ⟨h1, by simpa using e1, e2, e3, e4, e5, e6, e7, ?_, d :: rel, ?_, ?_⟩
        · rw [e8]; exact w2
        · rw [e9]; simp [w1]
        · intro x hx
          rcases List.mem_cons.1 hx with rfl | hx
          · simp
          · exact List.mem_cons_of_mem _ (e10 x hx)

theorem MethodCONNECT_invalid (h : ConnectionHandler) (env : Env) (path : Bytes)
    (hda : dialAddress path = none) :
    MethodCONNECT h env path = some { h with connects := h.connects ++ [path] } := by
  simp [MethodCONNECT, ConnectTarget_eq, hda]

theorem MethodCONNECT_dialFailed (h : ConnectionHandler) (env : Env) (path addr : Bytes)
    (hda : dialAddress path = some addr) (hdial : env.dial addr = none) :
    MethodCONNECT h env path =
      some { h with connects := h.connects ++ [path], target := none,
                    dials := h.dials ++ [addr] } := by
  simp [MethodCONNECT, ConnectTarget_eq, hda, dialResult, hdial]

theorem MethodCONNECT_dialed (h : ConnectionHandler) (env : Env) (path addr : Bytes)
    (conn : Conn) (hda : dialAddress path = some addr) (hdial : env.dial addr = some conn) :
    MethodCONNECT h env path =
      if (h.client.Write RESPONSE).1 = true then
        DoCONNECT { h with connects := h.connects ++ [path], target := some conn,
                           targetClosed := false, dials := h.dials ++ [addr],
                           client := (h.client.Write RESPONSE).2, clientBuffer := [] } env.events
      else
        some { h with connects := h.connects ++ [path], target := some conn,
                      targetClosed := false, dials := h.dials ++ [addr],
                      client := (h.client.Write RESPONSE).2 } := by
  simp only [MethodCONNECT, ConnectTarget_eq, hda, dialResult, hdial, Option.some_bind]
  cases (h.client.Write RESPONSE).1 <;> simp

/-- `MethodCONNECT` on a handler without a target returns, and the handler it leaves went
through the dial step once. -/
theorem MethodCONNECT_spec (h : ConnectionHandler) (env : Env) (path : Bytes)
    (htc : h.targetClosed = true) (hcon : h.connects = [])
    (hd : h.dials = []) :
    ∃ h1, MethodCONNECT h env path = some h1 ∧ h1.WF ∧ h1.id = h.id ∧
      h1.clientClosed = h.clientClosed ∧ h1.client.readCalls = h.client.readCalls ∧
      Connected env h.client.written path h1 := by
  unfold Connected
  cases hda : dialAddress path with
  | none =>
    rw [MethodCONNECT_invalid h env path hda]
    refine ⟨_, rfl, ?_, rfl, rfl, rfl, ?_, ?_, [], ?_, ?_⟩
    · intro hc; simp [htc] at hc
    · simp [hcon]
    · simp [hd]
    · simp
    · simp
  | some addr =>
    cases hdial : env.dial addr with
    | none =>
      rw [MethodCONNECT_dialFailed h env path addr hda hdial]
      refine ⟨_, rfl, ?_, rfl, rfl, rfl, ?_, ?_, [], ?_, ?_⟩
      · intro hc; simp [htc] at hc
      · simp [hcon]
      · simp [hd]
      · simp [hdial]
      · simp
    | some conn =>
      rw [MethodCONNECT_dialed h env path addr conn hda hdial]
      obtain ⟨w1, w2, _⟩ := Write_frame h.client RESPONSE
      cases hw : (h.client.Write RESPONSE).1 with
      | false =>
        refine ⟨{ h with connects := h.connects ++ [path], target := some conn,
                         targetClosed := false, dials := h.dials ++ [addr],
                         client := (h.client.Write RESPONSE).2 }, ?_, ?_, rfl, rfl, w2,
          ?_, ?_, [], ?_, ?_⟩
        · simp
        · intro _; rfl
        · simp [hcon]
        · simp [hd]
        · simp [hdial, w1]
        · simp
      | true =>
        obtain ⟨h3, e1, e2, e3, e4, e5, e6, e7, e8, rel, e9, e10⟩ :=
          DoCONNECT_frame env.events
            { h with connects := h.connects ++ [path], target := some conn,
                     targetClosed := false, dials := h.dials ++ [addr],
                     client := (h.client.Write RESPONSE).2, clientBuffer := [] } rfl
        refine ⟨h3, ?_, ?_, e2, e5, ?_, ?_, ?_, rel, ?_, e10⟩
        · simp only [if_true]
          exact e1
        · intro _; exact e7
        · rw [e8]; exact w2
        · rw [e3]; simp [hcon]
        · rw [e4]; simp [hd]
        · rw [e9]; simp [hdial, w1]

theorem XPass_no_colon : (58 : UInt8) ∉ ascii "X-Pass" := by decide

theorem XRealHost_no_colon : (58 : UInt8) ∉ ascii "X-Real-Host" := by decide

theorem XSplit_no_colon : (58 : UInt8) ∉ ascii "X-Split" := by decide

theorem WF_of_targetClosed (h : ConnectionHandler) (htc : h.targetClosed = true) : h.WF := by
  intro hc
  simp [htc] at hc

/-- The authorization step returns, and its outcome is the policy `Decision`. -/
theorem authorize_spec (s : Server) (h : ConnectionHandler) (env : Env) (hostPort : Bytes)
    (htc : h.targetClosed = true) (hcon : h.connects = []) (hd : h.dials = []) :
    ∃ h1, Handle.authorize s h env hostPort = some h1 ∧ h1.WF ∧ h1.id = h.id ∧
      h1.clientClosed = h.clientClosed ∧ h1.client.readCalls = h.client.readCalls ∧
      Decision s env h.client.written h.clientBuffer hostPort h1 := by
  have rej : ∀ lit : Bytes,
      ({ h with client := (h.client.Write lit).2 } : ConnectionHandler).WF ∧
      ({ h with client := (h.client.Write lit).2 } : ConnectionHandler).client.readCalls =
        h.client.readCalls ∧
      Rejected h.client.written lit { h with client := (h.client.Write lit).2 } := by
    intro lit
    obtain ⟨w1, w2, _⟩ := Write_frame h.client lit
    exact ⟨WF_of_targetClosed _ htc, w2, hcon, hd, w1⟩
  unfold Handle.authorize Decision
  rw [FindHeader_eq_ref _ _ XPass_no_colon]
  simp only [Option.some_bind, Server.GetPass]
  by_cases hhp : hostPort = []
  · simp only [hhp, ne_eq, not_true_eq_false, if_false, if_true]
    exact ⟨_, rfl, (rej _).1, rfl, rfl, (rej _).2.1, (rej _).2.2⟩
  · simp only [ne_eq, hhp, not_false_eq_true, if_true, if_false]
    by_cases hp : s.pass = []
    · have hl : ¬ (s.pass.length ≠ 0) := by simp [hp]
      simp only [hl, false_and, if_false, hp, not_true_eq_false]
      by_cases hpre : loopbackByPrefix hostPort = true
      · have hpre2 : (HasPrefix hostPort (ascii "127.0.0.1") ||
            HasPrefix hostPort (ascii "localhost")) = true := hpre
        simp only [hpre2, if_true, hpre]
        exact MethodCONNECT_spec h env hostPort htc hcon hd
      · have hpre2 : ¬ (HasPrefix hostPort (ascii "127.0.0.1") ||
            HasPrefix hostPort (ascii "localhost")) = true := hpre
        simp only [hpre2, if_false, hpre]
        exact ⟨_, rfl, (rej _).1, rfl, rfl, (rej _).2.1, (rej _).2.2⟩
    · have hl : s.pass.length ≠ 0 := by
        intro h0
        exact hp (List.length_eq_zero.1 h0)
      simp only [hl, ne_eq, not_false_eq_true, true_and, hp, if_true]
      by_cases hpw : FindHeaderRef h.clientBuffer (ascii "X-Pass") = s.pass
      · simp only [hpw, if_true]
        exact MethodCONNECT_spec h env hostPort htc hcon hd
      · simp only [hpw, if_false, not_false_eq_true, if_true]
        exact ⟨_, rfl, (rej _).1, rfl, rfl, (rej _).2.1, (rej _).2.2⟩

theorem Close_frame (h h1 : ConnectionHandler) (hh : ConnectionHandler.Close h = some h1) :
    h1.connects = h.connects ∧ h1.dials = h.dials ∧ h1.client.written = h.client.written ∧
      h1.client.readCalls = h.client.readCalls := by
  unfold ConnectionHandler.Close at hh
  cases hc : h.clientClosed <;> cases ht : h.targetClosed <;> cases htg : h.target <;>
    simp [hc, ht, htg] at hh <;> subst hh <;> simp [Conn.Close]

theorem Decision_congr (s : Server) (env : Env) (w0 : List Bytes) (buf hostPort : Bytes)
    (r r1 : ConnectionHandler) (h1 : r1.connects = r.connects) (h2 : r1.dials = r.dials)
    (h3 : r1.client.written = r.client.written) (hd : Decision s env w0 buf hostPort r) :
    Decision s env w0 buf hostPort r1 := by
  unfold Decision Connected Rejected at *
  rw [h1, h2, h3]
  exact hd

/-- The body of `Handle`, run on a new handler, returns, and its outcome is `HandleOutcome`. -/
theorem body_spec (s : Server) (id : Nat) (client : Conn) (env : Env) :
    ∃ h1, Handle.body s (NewConnectionHandler id client) env = some h1 ∧ h1.WF ∧ h1.id = id ∧
      h1.clientClosed = false ∧ HandleOutcome s client env h1 := by
  simp only [Handle.body, HandleOutcome, NewConnectionHandler]
  obtain ⟨f1, f2, _⟩ := Read_frame client BUFLEN
  rcases hr : client.Read BUFLEN with ⟨r1, c1⟩
  rw [hr] at f1 f2
  simp only at f1 f2
  cases r1 with
  | none =>
    exact ⟨{ id := id, client := c1, target := none, clientClosed := false,
             targetClosed := true, clientBuffer := [], connects := [], dials := [] }, rfl,
      WF_of_targetClosed _ rfl, rfl, rfl, f2, rfl, rfl, f1⟩
  | some buf =>
    simp only [FindHeader_eq_ref _ _ XRealHost_no_colon,
      FindHeader_eq_ref _ _ XSplit_no_colon, Option.some_bind]
    by_cases hsp : FindHeaderRef buf (ascii "X-Split") = []
    · simp only [hsp, ne_eq, not_true_eq_false, if_false]
      obtain ⟨h1, e1, e2, e3, e4, e5, e6⟩ :=
        authorize_spec s
          { id := id, client := c1, target := none, clientClosed := false, targetClosed := true,
            clientBuffer := buf, connects := [], dials := [] } env (resolvedTarget s buf)
          rfl rfl rfl
      refine ⟨h1, e1, e2, e3, e4, ?_, ?_⟩
      · rw [e5]; exact f2
      · simp only at e6
        rw [f1] at e6
        exact e6
    · simp only [hsp, ne_eq, not_false_eq_true, if_true]
      obtain ⟨g1, g2, _⟩ := Read_frame c1 BUFLEN
      rcases hr2 : c1.Read BUFLEN with ⟨r2, c2⟩
      rw [hr2] at g1 g2
      simp only at g1 g2
      cases r2 with
      | none =>
        refine ⟨{ id := id, client := c2, target := none, clientClosed := false,
                  targetClosed := true, clientBuffer := buf, connects := [], dials := [] },
          rfl, WF_of_targetClosed _ rfl, rfl, rfl, ?_, rfl, rfl, ?_⟩
        · simp only [g2, f2]
        · simp only [g1, f1]
      | some data =>
        obtain ⟨h1, e1, e2, e3, e4, e5, e6⟩ :=
          authorize_spec s
            { id := id, client := c2, target := none, clientClosed := false,
              targetClosed := true, clientBuffer := overwritten buf data, connects := [],
              dials := [] } env (resolvedTarget s buf) rfl rfl rfl
        refine ⟨h1, e1, e2, e3, e4, ?_, ?_⟩
        · rw [e5]; simp only [g2, f2]
        · simp only at e6
          rw [g1, f1] at e6
          exact e6

/-- `Handle`, run on a new handler, always returns (no slice out of range, no nil
dereference): it leaves a closed handler, removed from the registry, whose outcome is
`HandleOutcome`. -/
theorem Handle_spec (s : Server) (id : Nat) (client : Conn) (env : Env) :
    ∃ r, Handle s (NewConnectionHandler id client) env = some (r, s.RemoveHandler r) ∧
      r.id = id ∧ r.clientClosed = true ∧ r.targetClosed = true ∧
      HandleOutcome s client env r := by
  obtain ⟨h1, e1, e2, e3, e4, e5⟩ := body_spec s id client env
  obtain ⟨r, c1, c2⟩ := Close_spec h1 e2
  obtain ⟨k1, k2, k3, k4⟩ := Close_frame h1 r c1
  obtain ⟨d1, d2, d3, _⟩ := c2
  refine ⟨r, by simp [Handle, e1, c1], by rw [d1, e3], d2, d3, ?_⟩
  unfold HandleOutcome Silent at *
  rcases hr : client.Read BUFLEN with ⟨r1, c1⟩
  rw [hr] at e5
  cases r1 with
  | none =>
    simp only at e5 ⊢
    rw [k1, k2, k3, k4]
    exact e5
  | some buf =>
    simp only at e5 ⊢
    by_cases hsp : FindHeaderRef buf (ascii "X-Split") = []
    · simp only [hsp, ne_eq, not_true_eq_false, if_false] at e5 ⊢
      exact ⟨by rw [k4]; exact e5.1, Decision_congr _ _ _ _ _ _ _ k1 k2 k3 e5.2⟩
    · simp only [hsp, ne_eq, not_false_eq_true, if_true] at e5 ⊢
      rcases hr2 : c1.Read BUFLEN with ⟨r2, c2⟩
      rw [hr2] at e5
      cases r2 with
      | none =>
        simp only at e5 ⊢
        rw [k1, k2, k3, k4]
        exact e5
      | some data =>
        simp only at e5 ⊢
        exact ⟨by rw [k4]; exact e5.1, Decision_congr _ _ _ _ _ _ _ k1 k2 k3 e5.2⟩

/-- The outcome of `Handle` when both handshake reads succeed: the policy `Decision`. -/
theorem outcome_of_reads (s : Server) (client : Conn) (env : Env) (r : ConnectionHandler)
    (buf : Bytes) (c1 : Conn) (hr1 : client.Read BUFLEN = (some buf, c1))
    (hr2 : FindHeaderRef buf (ascii "X-Split") ≠ [] → (c1.Read BUFLEN).1 ≠ none)
    (ho : HandleOutcome s client env r) :
    ∃ bufAtAuth, Decision s env client.written bufAtAuth (resolvedTarget s buf) r ∧
      (FindHeaderRef buf (ascii "X-Split") = [] → bufAtAuth = buf) := by
  unfold HandleOutcome at ho
  rw [hr1] at ho
  simp only at ho
  by_cases hsp : FindHeaderRef buf (ascii "X-Split") = []
  · simp only [hsp, ne_eq, not_true_eq_false, if_false] at ho
    exact ⟨buf, ho.2, fun _ => rfl⟩
  · simp only [hsp, ne_eq, not_false_eq_true, if_true] at ho
    have h2 := hr2 hsp
    rcases hrr : c1.Read BUFLEN with ⟨r2, c2⟩
    rw [hrr] at ho h2
    cases r2 with
    | none => exact absurd rfl h2
    | some data =>
      simp only at ho
      exact ⟨overwritten buf data, ho.2, fun h => absurd h hsp⟩

/-- Claim C3. With no password configured, for every connection whose handshake reads
succeed and whose resolved target string is not empty, `Handle` returns, and it enters
`MethodCONNECT` (the dial step) if and only if the target string starts with `127.0.0.1` or
`localhost`: in that case `MethodCONNECT` runs once, on the target string, and no rejection
is written (the client gets nothing, or `RESPONSE` and relayed data); in the other case the
only write on the client is the forbidden literal, no dial is made and `MethodCONNECT` is
not entered. -/
theorem Handle_no_password (s : Server) (id : Nat) (client : Conn) (env : Env) (buf : Bytes)
    (c1 : Conn) (hpass : s.pass = []) (hr1 : client.Read BUFLEN = (some buf, c1))
    (hr2 : FindHeaderRef buf (ascii "X-Split") ≠ [] → (c1.Read BUFLEN).1 ≠ none)
    (hhp : resolvedTarget s buf ≠ []) :
    ∃ r, Handle s (NewConnectionHandler id client) env = some (r, s.RemoveHandler r) ∧
      (r.connects ≠ [] ↔
        (HasPrefix (resolvedTarget s buf) (ascii "127.0.0.1") = true ∨
         HasPrefix (resolvedTarget s buf) (ascii "localhost") = true)) ∧
      ((HasPrefix (resolvedTarget s buf) (ascii "127.0.0.1") = true ∨
         HasPrefix (resolvedTarget s buf) (ascii "localhost") = true) →
        r.connects = [resolvedTarget s buf] ∧
        r.dials = (dialAddress (resolvedTarget s buf)).toList ∧
        ∃ relayed : List Bytes,
          r.client.written =
            client.written ++
              (if ((dialAddress (resolvedTarget s buf)).bind env.dial).isSome
               then RESPONSE :: relayed else []) ∧
          ∀ d ∈ relayed, RelayEvent.targetData d ∈ env.events) ∧
      (¬ (HasPrefix (resolvedTarget s buf) (ascii "127.0.0.1") = true ∨
          HasPrefix (resolvedTarget s buf) (ascii "localhost") = true) →
        r.client.written = client.written ++ [Forbidden] ∧ r.dials = [] ∧ r.connects = []) := by
  obtain ⟨r, e1, _, _, _, ho⟩ := Handle_spec s id client env
  obtain ⟨b, hd, _⟩ := outcome_of_reads s client env r buf c1 hr1 hr2 ho
  refine ⟨r, e1, ?_⟩
  unfold Decision at hd
  simp only [hhp, if_false, hpass, ne_eq, not_true_eq_false] at hd
  have hiff : loopbackByPrefix (resolvedTarget s buf) = true ↔
      (HasPrefix (resolvedTarget s buf) (ascii "127.0.0.1") = true ∨
       HasPrefix (resolvedTarget s buf) (ascii "localhost") = true) := by
    simp [loopbackByPrefix]
  by_cases hpre : loopbackByPrefix (resolvedTarget s buf) = true
  · simp only [hpre, if_true] at hd
    have hor := hiff.1 hpre
    refine ⟨⟨fun _ => hor, fun _ => by rw [hd.1]; simp⟩, fun _ => hd, fun hn => absurd hor hn⟩
  · simp only [hpre, if_false] at hd
    have hnor : ¬ (HasPrefix (resolvedTarget s buf) (ascii "127.0.0.1") = true ∨
       HasPrefix (resolvedTarget s buf) (ascii "localhost") = true) := fun h => hpre (hiff.2 h)
    obtain ⟨q1, q2, q3⟩ := hd
    refine ⟨⟨fun hc => absurd q1 hc, fun h => absurd h hnor⟩, fun h => absurd h hnor,
      fun _ => ⟨q3, q2, q1⟩⟩

theorem Handle_no_password_witness :
    openServer.pass = [] ∧ resolvedTarget openServer scenarioB = ascii "example.com:9999" ∧
    resolvedTarget openServer scenarioA = ascii "127.0.0.1:22" ∧
    (∃ r, Handle openServer (NewConnectionHandler 3 (freshConn [some scenarioB])) liveEnv =
        some (r, openServer.RemoveHandler r) ∧
      r.client.written = [Forbidden] ∧ r.dials = [] ∧ r.connects = []) ∧
    (∃ r, Handle openServer (NewConnectionHandler 4 (freshConn [some scenarioA])) liveEnv =
        some (r, openServer.RemoveHandler r) ∧
      r.connects = [ascii "127.0.0.1:22"] ∧ r.dials = [ascii "127.0.0.1:22"]) := by
  obtain ⟨r, e, _, _, h3⟩ :=
    Handle_no_password openServer 3 (freshConn [some scenarioB]) liveEnv scenarioB
      ((freshConn [some scenarioB]).Read BUFLEN).2 (by decide) (by decide) (by decide) (by decide)
  obtain ⟨r2, e2, _, h4, _⟩ :=
    Handle_no_password openServer 4 (freshConn [some scenarioA]) liveEnv scenarioA
      ((freshConn [some scenarioA]).Read BUFLEN).2 (by decide) (by decide) (by decide) (by decide)
  exact ⟨by decide, by decide, by decide, ⟨r, e, h3 (by decide)⟩,
    ⟨r2, e2, (h4 (by decide)).1, (h4 (by decide)).2.1⟩⟩

theorem NewServer_defaultHost_empty (host : Bytes) (port : Int) (pass : Bytes) :
    (NewServer host port pass []).defaultHost = ascii "127.0.0.1:143" := by
  simp [NewServer]

theorem NewServer_defaultHost_ne_nil (host : Bytes) (port : Int) (pass dh : Bytes) :
    (NewServer host port pass dh).defaultHost ≠ [] := by
  unfold NewServer
  by_cases h : dh = []
  · simp only [h, if_true]; decide
  · simp only [h, if_false]; exact h

theorem dialAddress_default : dialAddress (ascii "127.0.0.1:143") = some (ascii "127.0.0.1:143") := by
  decide

theorem Connected_not_literal (env : Env) (w0 : List Bytes) (hostPort lit : Bytes)
    (r : ConnectionHandler) (hlit : RESPONSE ≠ lit) (hc : Connected env w0 hostPort r) :
    r.client.written ≠ w0 ++ [lit] := by
  obtain ⟨_, _, rel, hw, _⟩ := hc
  rw [hw]
  intro h
  have h2 := List.append_cancel_left h
  split at h2
  · simp only [List.cons.injEq] at h2
    exact hlit h2.1
  · cases h2

/-- Claim C4, as stated, fails: a server built by `NewServer` with an empty default target
gets the default target `127.0.0.1:143`; for a request without `X-Real-Host` and no password
it dials `127.0.0.1:143` and answers `RESPONSE`, followed by relayed data, not the
no-real-host literal. -/
theorem Handle_NewServer_empty_default_dials :
    FindHeader (ascii "GET / HTTP/1.1\r\n\r\n") (ascii "X-Real-Host") = some [] ∧
    (Handle (NewServer (ascii "0.0.0.0") 80 [] [])
        (NewConnectionHandler 1 (freshConn [some (ascii "GET / HTTP/1.1\r\n\r\n")])) liveEnv).map
      (fun p => (p.1.client.written, p.1.dials)) =
      some ([RESPONSE, ascii "SSH-2.0-s\r\n"], [ascii "127.0.0.1:143"]) := by
  decide!

/-- Claim C4, amended. For every request without an `X-Real-Host` value whose handshake
reads succeed, `Handle` returns. When the default target of the server state is empty, the
only write on the client is the no-real-host literal, and nothing is dialed. A server built
by `NewServer` with an empty default target has the default target `127.0.0.1:143`: the
request resolves to that target, the no-real-host literal is not the response, and with no
password configured `MethodCONNECT` runs on `127.0.0.1:143`, which is dialed. -/
theorem Handle_no_XRealHost (s : Server) (id : Nat) (client : Conn) (env : Env) (buf : Bytes)
    (c1 : Conn) (hr1 : client.Read BUFLEN = (some buf, c1))
    (hr2 : FindHeaderRef buf (ascii "X-Split") ≠ [] → (c1.Read BUFLEN).1 ≠ none)
    (hno : FindHeaderRef buf (ascii "X-Real-Host") = []) :
    ∃ r, Handle s (NewConnectionHandler id client) env = some (r, s.RemoveHandler r) ∧
      (s.defaultHost = [] →
        r.client.written = client.written ++ [NoXRealHost] ∧ r.dials = [] ∧ r.connects = []) ∧
      (∀ (host : Bytes) (port : Int) (pass : Bytes),
        s.defaultHost = (NewServer host port pass []).defaultHost →
          resolvedTarget s buf = ascii "127.0.0.1:143" ∧
          r.client.written ≠ client.written ++ [NoXRealHost] ∧
          (s.pass = [] →
            r.connects = [ascii "127.0.0.1:143"] ∧ r.dials = [ascii "127.0.0.1:143"] ∧
            ∃ relayed : List Bytes,
              r.client.written =
                client.written ++
                  (if (env.dial (ascii "127.0.0.1:143")).isSome then RESPONSE :: relayed
                   else []) ∧
              ∀ d ∈ relayed, RelayEvent.targetData d ∈ env.events)) := by
  obtain ⟨r, e1, _, _, _, ho⟩ := Handle_spec s id client env
  obtain ⟨b, hd, _⟩ := outcome_of_reads s client env r buf c1 hr1 hr2 ho
  refine ⟨r, e1, ?_, ?_⟩
  · intro hdef
    have ht : resolvedTarget s buf = [] := by simp [resolvedTarget, hno, Server.GetDefaultHost, hdef]
    unfold Decision at hd
    simp only [ht, if_true] at hd
    exact ⟨hd.2.2, hd.2.1, hd.1⟩
  · intro host port pass hdef
    rw [NewServer_defaultHost_empty] at hdef
    have ht : resolvedTarget s buf = ascii "127.0.0.1:143" := by
      simp [resolvedTarget, hno, Server.GetDefaultHost, hdef]
    have hne : ¬ (ascii "127.0.0.1:143" = []) := by decide
    have hlb : loopbackByPrefix (ascii "127.0.0.1:143") = true := by decide
    unfold Decision at hd
    rw [ht] at hd
    simp only [hne, if_false, hlb, if_true] at hd
    refine ⟨ht, ?_, ?_⟩
    · by_cases hp : s.pass = []
      · simp only [hp, ne_eq, not_true_eq_false, if_false] at hd
        exact Connected_not_literal _ _ _ _ _ (by decide) hd
      · simp only [hp, ne_eq, not_false_eq_true, if_true] at hd
        split at hd
        · exact Connected_not_literal _ _ _ _ _ (by decide) hd
        · rw [hd.2.2]
          intro h
          have h2 := List.append_cancel_left h
          simp only [List.cons.injEq, and_true] at h2
          exact absurd h2 (by decide)
    · intro hp
      simp only [hp, ne_eq, not_true_eq_false, if_false] at hd
      obtain ⟨q1, q2, rel, q3, q4⟩ := hd
      rw [dialAddress_default] at q2 q3
      exact ⟨q1, q2, rel, q3, q4⟩

theorem Handle_no_XRealHost_witness :
    FindHeaderRef plainRequest (ascii "X-Real-Host") = [] ∧
    (∃ r, Handle zeroServer (NewConnectionHandler 5 (freshConn [some plainRequest])) liveEnv =
        some (r, zeroServer.RemoveHandler r) ∧
      r.client.written = [NoXRealHost] ∧ r.dials = [] ∧ r.connects = []) ∧
    (∃ r, Handle (NewServer (ascii "0.0.0.0") 80 [] [])
          (NewConnectionHandler 6 (freshConn [some plainRequest])) liveEnv =
        some (r, (NewServer (ascii "0.0.0.0") 80 [] []).RemoveHandler r) ∧
      r.client.written ≠ [NoXRealHost] ∧
      r.connects = [ascii "127.0.0.1:143"] ∧ r.dials = [ascii "127.0.0.1:143"]) := by
  obtain ⟨r, e, h1, _⟩ :=
    Handle_no_XRealHost zeroServer 5 (freshConn [some plainRequest]) liveEnv plainRequest
      ((freshConn [some plainRequest]).Read BUFLEN).2 (by decide) (by decide) (by decide)
  obtain ⟨r2, e2, _, h2⟩ :=
    Handle_no_XRealHost (NewServer (ascii "0.0.0.0") 80 [] []) 6 (freshConn [some plainRequest])
      liveEnv plainRequest ((freshConn [some plainRequest]).Read BUFLEN).2 (by decide)
      (by decide) (by decide)
  obtain ⟨_, h3, h4⟩ := h2 (ascii "0.0.0.0") 80 [] rfl
  exact ⟨by decide, ⟨r, e, h1 rfl⟩, ⟨r2, e2, h3, (h4 rfl).1, (h4 rfl).2.1⟩⟩

/-! ## The host part of the dialed address -/

theorem splitTarget_fst_cons (c : UInt8) (cs : Bytes) (hc : c ≠ 58) :
    (splitTarget (c :: cs)).1 = c :: (splitTarget cs).1 := by
  have hc2 : ¬ (58 : UInt8) = c := fun h => hc h.symm
  unfold splitTarget
  rw [ascii_colon]
  cases h : indexNat [58] cs with
  | none => simp [indexNat, List.isPrefixOf, hc2, h]
  | some i => simp [indexNat, List.isPrefixOf, hc2, h]

theorem splitTarget_fst_colon (cs : Bytes) : (splitTarget (58 :: cs)).1 = [] := by
  unfold splitTarget
  rw [ascii_colon]
  simp [indexNat, List.isPrefixOf]

theorem hostPart_no_colon : ∀ s : Bytes, (58 : UInt8) ∉ hostPart s := by
  intro s
  unfold hostPart
  induction s with
  | nil => decide
  | cons c cs ih =>
    by_cases hc : c = 58
    · subst hc
      rw [splitTarget_fst_colon]
      simp
    · rw [splitTarget_fst_cons c cs hc]
      intro hm
      rcases List.mem_cons.1 hm with h | h
      · exact hc h.symm
      · exact ih h

theorem hostPart_dialAddress (target addr : Bytes) (h : dialAddress target = some addr) :
    hostPart addr = hostPart target := by
  unfold dialAddress at h
  cases hA : Atoi (splitTarget target).2 with
  | none => simp [hA] at h
  | some port =>
    simp only [hA, Option.map_some', Option.some.injEq] at h
    rw [← h, ascii_colon]
    have := splitTarget_colon (splitTarget target).1 (fmtInt port) (hostPart_no_colon target)
    unfold hostPart
    simp only [List.append_assoc, List.singleton_append]
    rw [this]

theorem HasPrefix_hostPart (p : Bytes) (hp : (58 : UInt8) ∉ p) : ∀ t : Bytes,
    HasPrefix t p = true → HasPrefix (hostPart t) p = true := by
  unfold HasPrefix hostPart
  induction p with
  | nil => intro t _; simp [List.isPrefixOf]
  | cons c cs ih =>
    intro t ht
    cases t with
    | nil => simp [List.isPrefixOf] at ht
    | cons d ds =>
      simp only [List.isPrefixOf, Bool.and_eq_true, beq_iff_eq] at ht
      obtain ⟨hcd, hrest⟩ := ht
      have hc58 : c ≠ 58 := fun h => hp (by simp [h])
      have hcs : (58 : UInt8) ∉ cs := fun h => hp (by simp [h])
      subst hcd
      rw [splitTarget_fst_cons c ds hc58]
      simp only [List.isPrefixOf, Bool.and_eq_true, beq_iff_eq, true_and]
      exact ih hcs ds hrest

/-- Claim C8, as stated, fails: with no password the targets `localhost.evil.com:22` and
`127.0.0.1.evil.com` pass the check and are dialed, and their host parts are neither
`localhost` nor an address in `127.0.0.0/8`. -/
theorem Handle_dials_non_loopback :
    ((Handle openServer
        (NewConnectionHandler 1
          (freshConn [some (ascii "X-Real-Host: localhost.evil.com:22\r\n\r\n")])) liveEnv).map
      (fun p => p.1.dials) = some [ascii "localhost.evil.com:22"] ∧
      hostPart (ascii "localhost.evil.com:22") = ascii "localhost.evil.com" ∧
      isLoopbackHost (hostPart (ascii "localhost.evil.com:22")) = false) ∧
    ((Handle openServer
        (NewConnectionHandler 1
          (freshConn [some (ascii "X-Real-Host: 127.0.0.1.evil.com\r\n\r\n")])) liveEnv).map
      (fun p => p.1.dials) = some [ascii "127.0.0.1.evil.com:443"] ∧
      hostPart (ascii "127.0.0.1.evil.com:443") = ascii "127.0.0.1.evil.com" ∧
      isLoopbackHost (hostPart (ascii "127.0.0.1.evil.com:443")) = false) ∧
    isLoopbackHost (ascii "localhost") = true ∧ isLoopbackHost (ascii "127.0.0.1") = true ∧
    isLoopbackHost (ascii "127.255.0.9") = true ∧ isLoopbackHost (ascii "128.0.0.1") = false := by
  decide!

/-- Claim C8, amended. With no password configured `Handle` always returns, and the host
part of every address it dials starts with `127.0.0.1` or with `localhost`; it is the host
part of the target string `MethodCONNECT` was entered with, which starts with one of the
two as well. -/
theorem Handle_dials_by_prefix (s : Server) (id : Nat) (client : Conn) (env : Env)
    (hpass : s.pass = []) :
    ∃ r, Handle s (NewConnectionHandler id client) env = some (r, s.RemoveHandler r) ∧
      ∀ addr ∈ r.dials,
        (HasPrefix (hostPart addr) (ascii "127.0.0.1") = true ∨
          HasPrefix (hostPart addr) (ascii "localhost") = true) ∧
        ∃ target, r.connects = [target] ∧ dialAddress target = some addr ∧
          hostPart addr = hostPart target ∧
          (HasPrefix target (ascii "127.0.0.1") = true ∨
            HasPrefix target (ascii "localhost") = true) := by
  obtain ⟨r, e1, _, _, _, ho⟩ := Handle_spec s id client env
  refine ⟨r, e1, ?_⟩
  have key : ∀ (b t : Bytes), Decision s env client.written b t r →
      ∀ addr ∈ r.dials,
        (HasPrefix (hostPart addr) (ascii "127.0.0.1") = true ∨
          HasPrefix (hostPart addr) (ascii "localhost") = true) ∧
        ∃ target, r.connects = [target] ∧ dialAddress target = some addr ∧
          hostPart addr = hostPart target ∧
          (HasPrefix target (ascii "127.0.0.1") = true ∨
            HasPrefix target (ascii "localhost") = true) := by
    intro b t hd addr ha
    unfold Decision at hd
    simp only [hpass, ne_eq, not_true_eq_false, if_false] at hd
    by_cases ht : t = []
    · simp only [ht, if_true] at hd
      rw [hd.2.1] at ha
      cases ha
    · simp only [ht, if_false] at hd
      by_cases hpre : loopbackByPrefix t = true
      · simp only [hpre, if_true] at hd
        obtain ⟨q1, q2, _⟩ := hd
        rw [q2] at ha
        have hda : dialAddress t = some addr := by
          cases hx : dialAddress t with
          | none => simp [hx] at ha
          | some a =>
            simp only [hx, Option.toList_some, List.mem_singleton] at ha
            rw [ha]
        have hhost := hostPart_dialAddress t addr hda
        have hor : HasPrefix t (ascii "127.0.0.1") = true ∨
            HasPrefix t (ascii "localhost") = true := by
          simpa [loopbackByPrefix] using hpre
        refine ⟨?_, t, q1, hda, hhost, hor⟩
        rw [hhost]
        rcases hor with h | h
        · exact Or.inl (HasPrefix_hostPart _ (by decide) t h)
        · exact Or.inr (HasPrefix_hostPart _ (by decide) t h)
      · simp only [hpre, if_false] at hd
        rw [hd.2.1] at ha
        cases ha
  unfold HandleOutcome Silent at ho
  rcases hr : client.Read BUFLEN with ⟨r1, c1⟩
  rw [hr] at ho
  cases r1 with
  | none =>
    simp only at ho
    intro addr ha
    rw [ho.2.2.1] at ha
    cases ha
  | some buf =>
    simp only at ho
    by_cases hsp : FindHeaderRef buf (ascii "X-Split") = []
    · simp only [hsp, ne_eq, not_true_eq_false, if_false] at ho
      exact key _ _ ho.2
    · simp only [hsp, ne_eq, not_false_eq_true, if_true] at ho
      rcases hr2 : c1.Read BUFLEN with ⟨r2, c2⟩
      rw [hr2] at ho
      cases r2 with
      | none =>
        simp only at ho
        intro addr ha
        rw [ho.2.2.1] at ha
        cases ha
      | some data =>
        simp only at ho
        exact key _ _ ho.2

theorem Handle_dials_by_prefix_witness :
    openServer.pass = [] ∧
    ∃ r, Handle openServer
          (NewConnectionHandler 1
            (freshConn [some (ascii "X-Real-Host: localhost.evil.com:22\r\n\r\n")])) liveEnv =
        some (r, openServer.RemoveHandler r) ∧
      ∀ addr ∈ r.dials,
        (HasPrefix (hostPart addr) (ascii "127.0.0.1") = true ∨
          HasPrefix (hostPart addr) (ascii "localhost") = true) ∧
        ∃ target, r.connects = [target] ∧ dialAddress target = some addr ∧
          hostPart addr = hostPart target ∧
          (HasPrefix target (ascii "127.0.0.1") = true ∨
            HasPrefix target (ascii "localhost") = true) :=
  ⟨by decide, Handle_dials_by_prefix openServer 1 _ liveEnv (by decide)⟩

/-! ## The password check and the second read -/

/-- Claim C2 fails on the code. The read for `X-Split` (handler.go, line 254) stores its
bytes in the array of the handshake buffer, and `X-Pass` is looked up afterwards (line 263).
A handshake that carries the right password is answered with the wrong-password literal
when the second fragment covers the header, and a handshake without `X-Pass` is let through
to the dial when the second fragment carries the password. -/
theorem Handle_split_read_overwrites_password :
    (FindHeader splitWithPass (ascii "X-Pass") = some secretServer.pass ∧
      observe (Handle secretServer
        (NewConnectionHandler 1
          (freshConn [some splitWithPass, some (ascii "SSH-2.0-OpenSSH_9.6\r\n")])) liveEnv) =
        some ([WrongPass], [], [], 2)) ∧
    (FindHeader scenarioD (ascii "X-Pass") = some [] ∧
      observe (Handle secretServer
        (NewConnectionHandler 1
          (freshConn [some scenarioD, some (ascii "X-Pass: secret\r\n")])) liveEnv) =
        some ([RESPONSE, ascii "SSH-2.0-s\r\n"], [ascii "127.0.0.1:22"],
              [ascii "127.0.0.1:22"], 2)) := by
  decide!

/-- The password policy of `Handle` (handler.go, lines 266-269), on the buffer as it stands
at the lookup. With a password configured and a resolved target that is not empty, for
handshake reads that succeed: when `X-Pass`, looked up in the handshake buffer after the
second read has been stored over its beginning (in the handshake buffer itself when there
is no second read), equals the password, `MethodCONNECT` runs once on the resolved target
and no rejection is written; otherwise the only write on the client is the wrong-password
literal, nothing is dialed and `MethodCONNECT` is not entered. -/
theorem Handle_password (s : Server) (id : Nat) (client : Conn) (env : Env) (buf : Bytes)
    (c1 : Conn) (hpass : s.pass ≠ []) (hr1 : client.Read BUFLEN = (some buf, c1))
    (hr2 : FindHeaderRef buf (ascii "X-Split") ≠ [] → (c1.Read BUFLEN).1 ≠ none)
    (hhp : resolvedTarget s buf ≠ []) :
    ∃ r bufAtAuth, Handle s (NewConnectionHandler id client) env = some (r, s.RemoveHandler r) ∧
      (FindHeaderRef buf (ascii "X-Split") = [] → bufAtAuth = buf) ∧
      (∀ data, FindHeaderRef buf (ascii "X-Split") ≠ [] → (c1.Read BUFLEN).1 = some data →
        bufAtAuth = overwritten buf data) ∧
      (FindHeaderRef bufAtAuth (ascii "X-Pass") = s.pass →
        Connected env client.written (resolvedTarget s buf) r) ∧
      (FindHeaderRef bufAtAuth (ascii "X-Pass") ≠ s.pass →
        r.client.written = client.written ++ [WrongPass] ∧ r.dials = [] ∧ r.connects = []) := by
  obtain ⟨r, e1, _, _, _, ho⟩ := Handle_spec s id client env
  unfold HandleOutcome at ho
  rw [hr1] at ho
  simp only at ho
  have key : ∀ b, Decision s env client.written b (resolvedTarget s buf) r →
      (FindHeaderRef b (ascii "X-Pass") = s.pass →
        Connected env client.written (resolvedTarget s buf) r) ∧
      (FindHeaderRef b (ascii "X-Pass") ≠ s.pass →
        r.client.written = client.written ++ [WrongPass] ∧ r.dials = [] ∧ r.connects = []) := by
    intro b hd
    unfold Decision at hd
    simp only [hhp, if_false, hpass, ne_eq, not_false_eq_true, if_true] at hd
    constructor
    · intro hm
      simpa only [hm, if_true] using hd
    · intro hm
      simp only [hm, if_false] at hd
      exact ⟨hd.2.2, hd.2.1, hd.1⟩
  by_cases hsp : FindHeaderRef buf (ascii "X-Split") = []
  · simp only [hsp, ne_eq, not_true_eq_false, if_false] at ho
    exact ⟨r, buf, e1, fun _ => rfl, fun _ h => absurd hsp h, key _ ho.2⟩
  · simp only [hsp, ne_eq, not_false_eq_true, if_true] at ho
    have h2 := hr2 hsp
    rcases hrr : c1.Read BUFLEN with ⟨r2, c2⟩
    rw [hrr] at ho h2
    cases r2 with
    | none => exact absurd rfl h2
    | some data =>
      simp only at ho
      refine ⟨r, overwritten buf data, e1, fun h => absurd h hsp, ?_, key _ ho.2⟩
      intro d _ hd
      simp only [Option.some.injEq] at hd
      rw [hd]

theorem Handle_password_witness :
    secretServer.pass ≠ [] ∧ resolvedTarget secretServer scenarioC = ascii "127.0.0.1:22" ∧
    FindHeaderRef scenarioC (ascii "X-Pass") = ascii "wrong" ∧
    ∃ r, Handle secretServer (NewConnectionHandler 1 (freshConn [some scenarioC])) liveEnv =
        some (r, secretServer.RemoveHandler r) ∧
      r.client.written = [WrongPass] ∧ r.dials = [] ∧ r.connects = [] := by
  obtain ⟨r, b, e, hb, _, _, h4⟩ :=
    Handle_password secretServer 1 (freshConn [some scenarioC]) liveEnv scenarioC
      ((freshConn [some scenarioC]).Read BUFLEN).2 (by decide) (by decide) (by decide) (by decide)
  have hb2 : b = scenarioC := hb (by decide)
  subst hb2
  exact ⟨by decide, by decide, by decide, r, e, h4 (by decide)⟩

/-- Claim C7 fails on the code. The handshake `emptySplit` carries the CRLF-terminated
header `X-Split: ` with an empty value; `FindHeader` returns the empty string for it, the
test `split != ""` (handler.go, line 252) fails, and `Handle` makes one read only: the
second fragment stays unread. With the value `1` in the same place it makes two reads. -/
theorem Handle_empty_split_no_second_read :
    (FindHeader emptySplit (ascii "X-Split") = some [] ∧
      afterFirst (ascii "X-Split: ") emptySplit = some (ascii "\r\n\r\n") ∧
      observe (Handle openServer
        (NewConnectionHandler 1 (freshConn [some emptySplit, some (ascii "rest")])) liveEnv) =
        some ([RESPONSE, ascii "SSH-2.0-s\r\n"], [ascii "127.0.0.1:22"],
              [ascii "127.0.0.1:22"], 1)) ∧
    (FindHeader scenarioD (ascii "X-Split") = some (ascii "1") ∧
      observe (Handle openServer
        (NewConnectionHandler 1 (freshConn [some scenarioD, some (ascii "rest")])) liveEnv) =
        some ([RESPONSE, ascii "SSH-2.0-s\r\n"], [ascii "127.0.0.1:22"],
              [ascii "127.0.0.1:22"], 2)) := by
  decide!

/-- The number of reads of `Handle` (handler.go, lines 236 and 251-260). When the first
read succeeds, `Handle` makes exactly one more read on the client if the value found for
`X-Split` is not empty, and no other read if it is empty, which is the case of a buffer
without `X-Split: ` and of a header with an empty value. -/
theorem Handle_read_count (s : Server) (id : Nat) (client : Conn) (env : Env) (buf : Bytes)
    (c1 : Conn) (hr1 : client.Read BUFLEN = (some buf, c1)) :
    ∃ r, Handle s (NewConnectionHandler id client) env = some (r, s.RemoveHandler r) ∧
      r.client.readCalls =
        client.readCalls + (if FindHeaderRef buf (ascii "X-Split") ≠ [] then 2 else 1) ∧
      (afterFirst (ascii "X-Split: ") buf = none → r.client.readCalls = client.readCalls + 1) := by
  obtain ⟨r, e1, _, _, _, ho⟩ := Handle_spec s id client env
  unfold HandleOutcome at ho
  rw [hr1] at ho
  simp only at ho
  have hcount : r.client.readCalls =
      client.readCalls + (if FindHeaderRef buf (ascii "X-Split") ≠ [] then 2 else 1) := by
    by_cases hsp : FindHeaderRef buf (ascii "X-Split") = []
    · simp only [hsp, ne_eq, not_true_eq_false, if_false] at ho ⊢
      exact ho.1
    · simp only [hsp, ne_eq, not_false_eq_true, if_true] at ho ⊢
      rcases hrr : c1.Read BUFLEN with ⟨r2, c2⟩
      rw [hrr] at ho
      cases r2 with
      | none => exact ho.1
      | some data => exact ho.1
  refine ⟨r, e1, hcount, ?_⟩
  intro hnone
  have hsp : FindHeaderRef buf (ascii "X-Split") = [] := by
    unfold FindHeaderRef
    have : ascii "X-Split" ++ ascii ": " = ascii "X-Split: " := by decide
    rw [this, hnone]
  rw [hcount]
  simp [hsp]

theorem Handle_read_count_witness :
    ∃ r, Handle openServer (NewConnectionHandler 1 (freshConn [some scenarioD, some (ascii "rest")]))
          liveEnv = some (r, openServer.RemoveHandler r) ∧
      r.client.readCalls = 2 := by
  obtain ⟨r, e, h, _⟩ :=
    Handle_read_count openServer 1 (freshConn [some scenarioD, some (ascii "rest")]) liveEnv
      scenarioD ((freshConn [some scenarioD, some (ascii "rest")]).Read BUFLEN).2 (by decide)
  exact ⟨r, e, h⟩

end Wssht
